import Mathlib

/-!
Shallow embedding of netdumpd (src/netdumpd.c), the network crash-dump
collection daemon, together with theorems settling the specification claims.

The C code is single-threaded; all session mutation happens in the event
loop.  We model the observable effects of each handler as a list of
actions, sessions as a structure mirroring struct netdump_client, and the
filesystem / socket environment as explicit oracles (an openat or pwrite
either succeeds or fails; which one happens is an input to the model).
File descriptors, the kqueue, and logging calls (LOGERR/LOGINFO) carry no
claim-relevant state and are not modelled; client_pinfo lines are modelled
as infoLine actions because several claims mention specific info-file
lines.  Byte-order conversion (ndtoh) is identity in the model: header
fields are already host-order naturals.
-/

/-- MAX_DUMPS from netdumpd.c: maximum saved dumps per remote host. -/
def MAX_DUMPS : Nat := 256

/-- CLIENT_TIMEOUT from netdumpd.c: netdump timeout period, in seconds. -/
def CLIENT_TIMEOUT : Int := 600

/-- CLIENT_TPASS from netdumpd.c: scan for timed-out clients every 10s. -/
def CLIENT_TPASS : Int := 10

/-- VMCORE_BUFSZ from netdumpd.c: 128 KiB staging buffer. -/
def VMCORE_BUFSZ : Nat := 128 * 1024

/-- NETDUMP_DATASIZE from the protocol header netinet/netdump/netdump.h
(not part of this repository).  Per the spec, the maximum payload per
datagram is a fixed constant of 1456 bytes, chosen to fit a 1500-byte MTU;
the code itself uses the literal 1456 in its progress computation. -/
def NETDUMP_DATASIZE : Nat := 1456

/-- Size in bytes of struct netdump_msg_hdr: u32 seqno, u32 type, u32 len,
u64 offset. -/
def NETDUMP_MSG_HDR_SIZE : Nat := 20

/-- Size in bytes of struct kerneldumpheader (sys/kerneldump.h, external
to this repository).  Only its comparison against mh_len matters here. -/
def KERNELDUMPHEADER_SIZE : Nat := 512

/-- Message type tag NETDUMP_KDH (kernel dump header). -/
def NETDUMP_KDH : Nat := 1

/-- Message type tag NETDUMP_FINISHED. -/
def NETDUMP_FINISHED : Nat := 2

/-- Message type tag NETDUMP_VMCORE (dump data). -/
def NETDUMP_VMCORE : Nat := 3

/-- struct netdump_msg_hdr: the common packet header, already converted to
host byte order. -/
structure NetdumpMsgHdr where
  mh_seqno : Nat
  mh_type : Nat
  mh_len : Nat
  mh_offset : Nat
deriving DecidableEq, Repr

/-- struct netdump_pkt: header plus payload bytes.  The data array holds
the validated payload; its length equals mh_len for packets that pass the
client_event size checks (stated as a hypothesis where needed). -/
structure NetdumpPkt where
  hdr : NetdumpMsgHdr
  data : List Nat
deriving DecidableEq, Repr

/-- struct netdump_client: per-donor session state.  The open FILE handle,
core fd and socket fd are not modelled; vmcorebufoff is vmcorebuf.length. -/
structure NetdumpClient where
  path : String
  infofilename : String
  corefilename : String
  hostname : String
  last_msg : Int
  ip : Nat
  any_data_rcvd : Bool
  vmcoreoff : Nat
  vmcorebuf : List Nat
deriving DecidableEq, Repr

/-- Observable effects of the daemon.  staleInfoLine and staleAck model
the client_pinfo and send_ack calls that server_event performs on a client
that free_client has already destroyed (its info stream fclosed and socket
closed): those writes cannot reach a registered session, so they are kept
distinct from live infoLine / sendAck effects. -/
inductive Act where
  | pwrite (off : Nat) (bytes : List Nat)
  | fsyncCore
  | sendAck (seqno : Nat)
  | infoLine (s : String)
  | handler (reason : String)
  | unlinkLast (name : String)
  | symlinkLast (target : String) (name : String)
  | freeClient
  | staleInfoLine (s : String)
  | staleAck (seqno : Nat)
deriving DecidableEq, Repr

/-- Outcome of an unlinkat call, as distinguished by handle_finish:
success, failure with ENOENT (tolerated), or any other failure. -/
inductive UnlinkResult where
  | ok
  | enoent
  | err
deriving DecidableEq, Repr

/-- Filesystem / socket environment for the packet handlers: whether a
given pwrite writes all its bytes, what unlinkat returns for a path, and
whether symlinkat succeeds. -/
structure FsEnv where
  pwriteOk : Nat → List Nat → Bool
  unlinkRes : String → UnlinkResult
  symlinkOk : String → String → Bool

/-- Path of the vmcore.H.last symlink, as built by handle_finish. -/
def lastCoreName (path host : String) : String :=
  path ++ "/vmcore." ++ host ++ ".last"

/-- Path of the info.H.last symlink, as built by handle_finish. -/
def lastInfoName (path host : String) : String :=
  path ++ "/info." ++ host ++ ".last"

/-- Info filename for index i, as built by alloc_client. -/
def infoName (path host : String) (i : Nat) : String :=
  path ++ "/info." ++ host ++ "." ++ toString i

/-- Core filename for index i, as built by alloc_client. -/
def coreName (path host : String) (i : Nat) : String :=
  path ++ "/vmcore." ++ host ++ "." ++ toString i

/-- vmcore_flush from netdumpd.c: write the staged bytes as one positional
write at vmcoreoff.  On a short or failed write the session records the
error in its info file, invokes the handler with reason error and is
destroyed (result none); on success the fill is reset to zero. -/
def vmcore_flush (fenv : FsEnv) (c : NetdumpClient) :
    List Act × Option NetdumpClient :=
  if fenv.pwriteOk c.vmcoreoff c.vmcorebuf then
    ([Act.pwrite c.vmcoreoff c.vmcorebuf],
     some { c with vmcorebuf := [] })
  else
    ([Act.pwrite c.vmcoreoff c.vmcorebuf,
      Act.infoLine "Dump unsuccessful: write error",
      Act.handler "error", Act.freeClient], none)

/-- The conditional flush at the head of handle_vmcore: flush if the
buffer cannot take another full data unit, or if the received segment is
not contiguous with the buffered data. -/
def vmcore_maybe_flush (fenv : FsEnv) (c : NetdumpClient) (pkt : NetdumpPkt) :
    List Act × Option NetdumpClient :=
  if VMCORE_BUFSZ < c.vmcorebuf.length + NETDUMP_DATASIZE ∨
      (0 < c.vmcorebuf.length ∧
        c.vmcoreoff + c.vmcorebuf.length ≠ pkt.hdr.mh_offset) then
    vmcore_flush fenv c
  else
    ([], some c)

/-- handle_vmcore from netdumpd.c: set any_data_rcvd, conditionally flush,
stage the payload (recording the base offset when the buffer was empty)
and acknowledge the sequence number. -/
def handle_vmcore (fenv : FsEnv) (c : NetdumpClient) (pkt : NetdumpPkt) :
    List Act × Option NetdumpClient :=
  match vmcore_maybe_flush fenv { c with any_data_rcvd := true } pkt with
  | (facts, none) => (facts, none)
  | (facts, some c1) =>
      let c2 := { c1 with
        vmcoreoff := if c1.vmcorebuf.length = 0 then pkt.hdr.mh_offset
                     else c1.vmcoreoff,
        vmcorebuf := c1.vmcorebuf ++ pkt.data }
      (facts ++ [Act.sendAck pkt.hdr.mh_seqno], some c2)

/-- handle_kdh from netdumpd.c: set any_data_rcvd first; reject a payload
smaller than struct kerneldumpheader with only a Bad KDH info line (no
acknowledgement); otherwise write the descriptive info lines (abstracted
to one action: no claim depends on their formatted contents) and
acknowledge. -/
def handle_kdh (c : NetdumpClient) (pkt : NetdumpPkt) :
    List Act × Option NetdumpClient :=
  if pkt.hdr.mh_len < KERNELDUMPHEADER_SIZE then
    ([Act.infoLine "Bad KDH: packet too small"],
     some { c with any_data_rcvd := true })
  else
    ([Act.infoLine "KDH descriptive lines",
      Act.sendAck pkt.hdr.mh_seqno], some { c with any_data_rcvd := true })

/-- handle_finish from netdumpd.c: flush the coalescer (fatal on error),
fsync the core file, replace the vmcore and info .last symlinks (returning
early, session kept, if an unlink fails with other than ENOENT or a
symlink fails), then write Dump complete, acknowledge, run the handler
with reason success and destroy the session. -/
def handle_finish (fenv : FsEnv) (c : NetdumpClient) (pkt : NetdumpPkt) :
    List Act × Option NetdumpClient :=
  match vmcore_flush fenv c with
  | (facts, none) => (facts, none)
  | (facts, some c1) =>
      let vname := lastCoreName c1.path c1.hostname
      let iname := lastInfoName c1.path c1.hostname
      let acts := facts ++ [Act.fsyncCore, Act.unlinkLast vname]
      if fenv.unlinkRes vname = UnlinkResult.err then (acts, some c1)
      else
        let acts := acts ++ [Act.symlinkLast c1.corefilename vname]
        if fenv.symlinkOk c1.corefilename vname = false then (acts, some c1)
        else
          let acts := acts ++ [Act.unlinkLast iname]
          if fenv.unlinkRes iname = UnlinkResult.err then (acts, some c1)
          else
            let acts := acts ++ [Act.symlinkLast c1.infofilename iname]
            if fenv.symlinkOk c1.infofilename iname = false then
              (acts, some c1)
            else
              (acts ++ [Act.infoLine "Dump complete",
                Act.sendAck pkt.hdr.mh_seqno,
                Act.handler "success", Act.freeClient], none)

/-- The effects of handle_timeout from netdumpd.c: record the timeout in
the info file, invoke the handler with reason timeout, destroy the
session. -/
def handle_timeout_acts : List Act :=
  [Act.infoLine "Dump incomplete: client timed out",
   Act.handler "timeout", Act.freeClient]

/-- timeout_clients from netdumpd.c: do nothing within CLIENT_TPASS
seconds of the previous sweep; otherwise record the sweep time and
terminate, via the timeout path, every client whose last_msg plus
CLIENT_TIMEOUT lies strictly before g_now.  Returns the new
g_last_timeout_check, the surviving registry, and the emitted actions. -/
def timeout_clients (g_now g_last : Int) (cs : List NetdumpClient) :
    Int × List NetdumpClient × List Act :=
  if g_now - g_last < CLIENT_TPASS then
    (g_last, cs, [])
  else
    (g_now,
     cs.filter (fun c => !(decide (c.last_msg + CLIENT_TIMEOUT < g_now))),
     (cs.filter (fun c => decide (c.last_msg + CLIENT_TIMEOUT < g_now))).flatMap
       (fun _ => handle_timeout_acts))

/-- client_event from netdumpd.c, given the received datagram: drop a runt
(shorter than the message header), drop a datagram whose declared payload
length disagrees with the received size; otherwise refresh last_msg with a
fresh time() sample (the clock is indexed by time() call count; k is the
count so far in this wake) and dispatch on the message type; unknown types
are logged and ignored.  Returns the emitted actions, the surviving
session (none when it was destroyed) and the updated call count. -/
def client_event (fenv : FsEnv) (clock : Nat → Int) (k : Nat)
    (c : NetdumpClient) (dlen : Nat) (pkt : NetdumpPkt) :
    (List Act × Option NetdumpClient) × Nat :=
  if dlen < NETDUMP_MSG_HDR_SIZE then (([], some c), k)
  else if dlen - NETDUMP_MSG_HDR_SIZE ≠ pkt.hdr.mh_len then (([], some c), k)
  else
    let c := { c with last_msg := clock k }
    let r :=
      if pkt.hdr.mh_type = NETDUMP_KDH then handle_kdh c pkt
      else if pkt.hdr.mh_type = NETDUMP_VMCORE then handle_vmcore fenv c pkt
      else if pkt.hdr.mh_type = NETDUMP_FINISHED then handle_finish fenv c pkt
      else ([], some c)
    (r, k + 1)

/-- The LIST_FOREACH lookup in server_event: first registered session for
the donor address. -/
def findClient (cs : List NetdumpClient) (ip : Nat) : Option NetdumpClient :=
  cs.find? (fun c => c.ip == ip)

/-- Environment for alloc_client: outcome of hostname resolution (the two
cap_getnameinfo calls followed by domain stripping, collapsed to their
final result), per-index outcomes of the exclusive info-file openat, of
fdopen on the info fd, and of the exclusive core-file openat, and the
outcome of registering the socket with the kqueue. -/
structure AllocEnv where
  hostnameResult : Option String
  infoOpenOk : Nat → Bool
  fdopenOk : Nat → Bool
  coreOpenOk : Nat → Bool
  keventAddOk : Bool

/-- Filesystem actions of the alloc_client filename scan. -/
inductive AllocAct where
  | openInfo (i : Nat) (ok : Bool)
  | fdopenInfo (i : Nat) (ok : Bool)
  | openCore (i : Nat) (ok : Bool)
  | unlinkInfo (i : Nat)
deriving DecidableEq, Repr

/-- Index i is usable: info openat, fdopen, and core openat all succeed. -/
def goodIdx (aenv : AllocEnv) (i : Nat) : Bool :=
  aenv.infoOpenOk i && aenv.fdopenOk i && aenv.coreOpenOk i

/-- One iteration of the alloc_client filename loop at index i: try the
info file first; on its success fdopen it (unlinking the info file if
fdopen fails); then try the core file, unlinking the info file when the
core file cannot be created. -/
def idxActs (aenv : AllocEnv) (i : Nat) : List AllocAct :=
  if aenv.infoOpenOk i = false then
    [AllocAct.openInfo i false]
  else if aenv.fdopenOk i = false then
    [AllocAct.openInfo i true, AllocAct.fdopenInfo i false,
     AllocAct.unlinkInfo i]
  else if aenv.coreOpenOk i = false then
    [AllocAct.openInfo i true, AllocAct.fdopenInfo i true,
     AllocAct.openCore i false, AllocAct.unlinkInfo i]
  else
    [AllocAct.openInfo i true, AllocAct.fdopenInfo i true,
     AllocAct.openCore i true]

/-- The alloc_client filename loop over a list of candidate indices:
stop at the first index where both files are created, otherwise keep
scanning. -/
def scanIdx (aenv : AllocEnv) : List Nat → List AllocAct × Option Nat
  | [] => ([], none)
  | i :: is =>
      if goodIdx aenv i then (idxActs aenv i, some i)
      else
        let r := scanIdx aenv is
        (idxActs aenv i ++ r.1, r.2)

/-- alloc_client from netdumpd.c: resolve the hostname (failure of both
lookups aborts), scan indices 0 .. MAX_DUMPS-1 for a free filename pair
(no free pair aborts), register the socket with the kqueue (failure
aborts), and return the zero-initialised session with last_msg set to the
wake timestamp g_now. -/
def alloc_client (aenv : AllocEnv) (g_now : Int) (ip : Nat) (path : String) :
    Option NetdumpClient :=
  match aenv.hostnameResult with
  | none => none
  | some host =>
      match (scanIdx aenv (List.range MAX_DUMPS)).2 with
      | none => none
      | some i =>
          if aenv.keventAddOk = false then none
          else
            some { path := path,
                   infofilename := infoName path host i,
                   corefilename := coreName path host i,
                   hostname := host,
                   last_msg := g_now,
                   ip := ip,
                   any_data_rcvd := false,
                   vmcoreoff := 0,
                   vmcorebuf := [] }

/-- A successfully received herald, as returned by netdump_cap_herald:
donor address, herald sequence number and requested path component. -/
structure Herald where
  ip : Nat
  seqno : Nat
  path : String
deriving DecidableEq, Repr

/-- server_event from netdumpd.c, after netdump_cap_herald succeeded.
No session registered for the source address: allocate one (logging and
dropping on failure), write the Dump from info line and acknowledge.
A session exists and has received no data: re-acknowledge the herald and
leave everything untouched.  A session exists and has received data:
handle_timeout terminates and frees it, after which the code writes the
Dump from line and the acknowledgement through the freed session without
allocating a new one (modelled as stale actions; the registry entry is
gone). -/
def server_event (aenv : AllocEnv) (g_now : Int) (cs : List NetdumpClient)
    (h : Herald) : List Act × List NetdumpClient :=
  match findClient cs h.ip with
  | none =>
      match alloc_client aenv g_now h.ip h.path with
      | none => ([], cs)
      | some c =>
          ([Act.infoLine "Dump from", Act.sendAck h.seqno], c :: cs)
  | some c =>
      if c.any_data_rcvd = false then
        ([Act.sendAck h.seqno], cs)
      else
        (handle_timeout_acts ++
           [Act.staleInfoLine "Dump from", Act.staleAck h.seqno],
         cs.eraseP (fun x => x.ip == h.ip))

/-- A readiness event delivered by one kevent wake: either the listening
socket became readable (a herald) or a per-session socket did (a datagram
for the session registered for that address). -/
inductive WakeEvent where
  | server (h : Herald)
  | clientData (ip : Nat) (dlen : Nat) (pkt : NetdumpPkt)

/-- Registry update after client_event: a destroyed session is removed,
otherwise the session record is replaced in place. -/
def applyClient (cs : List NetdumpClient) (ip : Nat)
    (r : Option NetdumpClient) : List NetdumpClient :=
  match r with
  | none => cs.eraseP (fun c => c.ip == ip)
  | some c1 => cs.map (fun c => if c.ip == ip then c1 else c)

/-- Processing of one readiness event inside a wake.  State: registry,
actions so far, time() call count so far.  g_now is the timestamp the wake
recorded; client events for addresses with no registered session are
ignored. -/
def wakeStep (aenv : AllocEnv) (fenv : FsEnv) (g_now : Int)
    (clock : Nat → Int) (st : List NetdumpClient × List Act × Nat)
    (ev : WakeEvent) : List NetdumpClient × List Act × Nat :=
  match ev with
  | WakeEvent.server h =>
      let r := server_event aenv g_now st.1 h
      (r.2, st.2.1 ++ r.1, st.2.2)
  | WakeEvent.clientData ip dlen pkt =>
      match findClient st.1 ip with
      | none => st
      | some c =>
          let r := client_event fenv clock st.2.2 c dlen pkt
          (applyClient st.1 ip r.1.2, st.2.1 ++ r.1.1, r.2)

/-- One wake of the event loop: record g_now from the first time() call of
the wake, process the delivered readiness events in order, then run
timeout_clients with the same g_now.  Returns the recorded g_now, the new
g_last_timeout_check, the final registry and all emitted actions. -/
def eventloop_wake (aenv : AllocEnv) (fenv : FsEnv) (clock : Nat → Int)
    (g_last : Int) (cs : List NetdumpClient) (evs : List WakeEvent) :
    Int × Int × List NetdumpClient × List Act :=
  let g_now := clock 0
  let st := evs.foldl (wakeStep aenv fenv g_now clock) (cs, [], 1)
  let r := timeout_clients g_now g_last st.1
  (g_now, r.1, r.2.1, st.2.1 ++ r.2.2)

/-- Successive wakes of the event loop restricted to the timeout machinery
for a single idle session (no packets arrive for it): each wake at time w
runs timeout_clients on the singleton registry; the result is the wake
time at which the session is terminated, if any. -/
def runWakes (g_last : Int) (c : NetdumpClient) : List Int → Option Int
  | [] => none
  | w :: ws =>
      let r := timeout_clients w g_last [c]
      if r.2.1.isEmpty then some w else runWakes r.1 c ws

/-- Legality of a wake-time trace: starting from time prev, every wake
happens no earlier than the previous one and at most CLIENT_TPASS = 10
seconds after it (the kevent timeout bounds the gap between wakes). -/
def chain10 : Int → List Int → Bool
  | _, [] => true
  | prev, w :: ws => (decide (prev ≤ w) && decide (w ≤ prev + 10)) && chain10 w ws

/-- Last wake of a trace, or the start time for the empty trace. -/
def lastWake (prev : Int) (ws : List Int) : Int :=
  ws.getLast?.getD prev

/-- Sequence numbers acknowledged in an action list, in order. -/
def ackSeqnos (acts : List Act) : List Nat :=
  acts.filterMap (fun a => match a with
    | Act.sendAck s => some s
    | _ => none)

/-- Shape of handle_vmcore when the conditional flush keeps the session:
the staged payload is appended and the sequence number acknowledged. -/
theorem handle_vmcore_staged (fenv : FsEnv) (c : NetdumpClient)
    (pkt : NetdumpPkt) (facts : List Act) (c1 : NetdumpClient)
    (h : vmcore_maybe_flush fenv { c with any_data_rcvd := true } pkt
      = (facts, some c1)) :
    handle_vmcore fenv c pkt =
      (facts ++ [Act.sendAck pkt.hdr.mh_seqno],
       some { c1 with
         vmcoreoff := if c1.vmcorebuf.length = 0 then pkt.hdr.mh_offset
                      else c1.vmcoreoff,
         vmcorebuf := c1.vmcorebuf ++ pkt.data }) := by
  unfold handle_vmcore
  rw [h]

/-- Shape of handle_vmcore when the conditional flush destroys the
session: its actions pass through and no acknowledgement is sent. -/
theorem handle_vmcore_aborted (fenv : FsEnv) (c : NetdumpClient)
    (pkt : NetdumpPkt) (facts : List Act)
    (h : vmcore_maybe_flush fenv { c with any_data_rcvd := true } pkt
      = (facts, none)) :
    handle_vmcore fenv c pkt = (facts, none) := by
  unfold handle_vmcore
  rw [h]

/-- C1: a herald for a donor IP whose registered session has already
received data takes the timeout path for the prior session (info line
Dump incomplete: client timed out, handler reason timeout), but the code
then uses the just-freed session for the Dump from info line and the
acknowledgement and never calls alloc_client: afterwards no session at all
is registered for the donor.  The claim (and the spec) say a fresh session
is created and registered and then ACKed; the code instead leaves the
registry empty for that address and performs the write and the ACK through
freed resources.  This closed theorem evaluates server_event at such a
herald. -/
theorem C1_second_herald_no_new_session :
    server_event
      ⟨some "h", fun _ => true, fun _ => true, fun _ => true, true⟩ 50
      [{ path := "p", infofilename := "p/info.h.0",
         corefilename := "p/vmcore.h.0", hostname := "h", last_msg := 0,
         ip := 1, any_data_rcvd := true, vmcoreoff := 0, vmcorebuf := [] }]
      ⟨1, 5, "p"⟩
    = ([Act.infoLine "Dump incomplete: client timed out",
        Act.handler "timeout", Act.freeClient,
        Act.staleInfoLine "Dump from", Act.staleAck 5], []) := by
  rfl

/-- C10: for a VMCORE packet whose validated payload length is at most
NETDUMP_DATASIZE, (i) after the conditional flush the buffer fill plus the
payload length is at most VMCORE_BUFSZ, so the staging copy stays inside
the 128 KiB buffer, (ii) handle_vmcore preserves the invariant fill ≤
capacity, and (iii) so does vmcore_flush. -/
theorem C10_stage_in_bounds (fenv : FsEnv) (c : NetdumpClient)
    (pkt : NetdumpPkt) (hbuf : c.vmcorebuf.length ≤ VMCORE_BUFSZ)
    (hdata : pkt.data.length = pkt.hdr.mh_len)
    (hlen : pkt.hdr.mh_len ≤ NETDUMP_DATASIZE) :
    (∀ c1, (vmcore_maybe_flush fenv { c with any_data_rcvd := true } pkt).2
        = some c1 →
        c1.vmcorebuf.length + pkt.hdr.mh_len ≤ VMCORE_BUFSZ) ∧
    (∀ c2, (handle_vmcore fenv c pkt).2 = some c2 →
        c2.vmcorebuf.length ≤ VMCORE_BUFSZ) ∧
    (∀ c3, (vmcore_flush fenv c).2 = some c3 →
        c3.vmcorebuf.length ≤ VMCORE_BUFSZ) := by
  have hflush : ∀ (d : NetdumpClient) (c3 : NetdumpClient),
      (vmcore_flush fenv d).2 = some c3 → c3.vmcorebuf = [] := by
    intro d c3 h
    unfold vmcore_flush at h
    split at h
    · simp at h
      subst h
      rfl
    · simp at h
  have hmf : ∀ c1, (vmcore_maybe_flush fenv { c with any_data_rcvd := true }
      pkt).2 = some c1 →
      c1.vmcorebuf.length + pkt.hdr.mh_len ≤ VMCORE_BUFSZ := by
    intro c1 h
    unfold vmcore_maybe_flush at h
    split at h
    · have := hflush _ _ h
      rw [this]
      simp only [List.length_nil, Nat.zero_add]
      have : NETDUMP_DATASIZE ≤ VMCORE_BUFSZ := by decide
      omega
    · rename_i hcond
      simp only [Option.some.injEq] at h
      subst h
      simp only [not_or, not_lt] at hcond
      have h1 : c.vmcorebuf.length + NETDUMP_DATASIZE ≤ VMCORE_BUFSZ :=
        hcond.1
      simp only []
      omega
  refine ⟨hmf, ?_, ?_⟩
  · intro c2 h
    unfold handle_vmcore at h
    rcases hm : vmcore_maybe_flush fenv { c with any_data_rcvd := true } pkt
      with ⟨facts, r⟩
    rcases r with _ | c1
    · rw [hm] at h
      simp at h
    · rw [hm] at h
      simp only [Option.some.injEq] at h
      subst h
      have := hmf c1 (by rw [hm])
      simp only [List.length_append]
      omega
  · intro c3 h
    have := hflush _ _ h
    rw [this]
    simp only [List.length_nil]
    exact Nat.zero_le _

/-- C10 witness: the bound theorem applied at a concrete session holding
two staged bytes and a three-byte VMCORE packet. -/
theorem C10_stage_in_bounds_witness :
    ((2 : Nat) ≤ VMCORE_BUFSZ ∧ (3 : Nat) = 3 ∧ (3 : Nat) ≤ NETDUMP_DATASIZE) ∧
    ((∀ c1, (vmcore_maybe_flush ⟨fun _ _ => true, fun _ => UnlinkResult.ok,
          fun _ _ => true⟩
        { path := "p", infofilename := "p/info.h.0",
          corefilename := "p/vmcore.h.0", hostname := "h", last_msg := 0,
          ip := 1, any_data_rcvd := true, vmcoreoff := 0,
          vmcorebuf := [9, 9] }
        ⟨⟨1, 3, 3, 100⟩, [5, 6, 7]⟩).2 = some c1 →
        c1.vmcorebuf.length + 3 ≤ VMCORE_BUFSZ) ∧
     (∀ c2, (handle_vmcore ⟨fun _ _ => true, fun _ => UnlinkResult.ok,
          fun _ _ => true⟩
        { path := "p", infofilename := "p/info.h.0",
          corefilename := "p/vmcore.h.0", hostname := "h", last_msg := 0,
          ip := 1, any_data_rcvd := false, vmcoreoff := 0,
          vmcorebuf := [9, 9] }
        ⟨⟨1, 3, 3, 100⟩, [5, 6, 7]⟩).2 = some c2 →
        c2.vmcorebuf.length ≤ VMCORE_BUFSZ) ∧
     (∀ c3, (vmcore_flush ⟨fun _ _ => true, fun _ => UnlinkResult.ok,
          fun _ _ => true⟩
        { path := "p", infofilename := "p/info.h.0",
          corefilename := "p/vmcore.h.0", hostname := "h", last_msg := 0,
          ip := 1, any_data_rcvd := false, vmcoreoff := 0,
          vmcorebuf := [9, 9] }).2 = some c3 →
        c3.vmcorebuf.length ≤ VMCORE_BUFSZ)) :=
  ⟨⟨by decide, rfl, by decide⟩,
   C10_stage_in_bounds ⟨fun _ _ => true, fun _ => UnlinkResult.ok,
       fun _ _ => true⟩
     { path := "p", infofilename := "p/info.h.0",
       corefilename := "p/vmcore.h.0", hostname := "h", last_msg := 0,
       ip := 1, any_data_rcvd := false, vmcoreoff := 0, vmcorebuf := [9, 9] }
     ⟨⟨1, 3, 3, 100⟩, [5, 6, 7]⟩ (by decide) rfl (by decide)⟩

/-- Filesystem environment in which every operation succeeds (unlinkat of
a missing symlink reports ENOENT, which the code tolerates). -/
def fenvAllOk : FsEnv :=
  ⟨fun _ _ => true, fun _ => UnlinkResult.enoent, fun _ _ => true⟩

/-- A staging buffer holding 90 full data units: 90 * 1456 = 131040 bytes,
a reachable fill (90 contiguous maximal VMCORE packets are staged without
any intervening flush, since 131040 + 1456 exceeds VMCORE_BUFSZ only on
the 91st). -/
def bigbuf : List Nat := List.replicate 131040 170

/-- Session holding bigbuf staged at base offset 0. -/
def cexC2client : NetdumpClient :=
  { path := "p", infofilename := "p/info.h.0",
    corefilename := "p/vmcore.h.0", hostname := "h", last_msg := 0,
    ip := 1, any_data_rcvd := true, vmcoreoff := 0, vmcorebuf := bigbuf }

/-- A short (32-byte) VMCORE packet contiguous with bigbuf. -/
def cexC2pkt : NetdumpPkt :=
  ⟨⟨7, 3, 32, 131040⟩, List.replicate 32 187⟩

/-- C2 counterexample: the packet is contiguous with the non-empty buffer
and its 32-byte payload fits the 128 KiB capacity exactly (131040 + 32 =
131072), yet handle_vmcore flushes first: the code requires room for a
full NETDUMP_DATASIZE unit (131040 + 1456 > 131072), not for the actual
payload, so the claimed append-without-flush case does not hold. -/
theorem C2_fit_check_cex :
    cexC2client.vmcorebuf ≠ [] ∧
    cexC2client.vmcoreoff + cexC2client.vmcorebuf.length
      = cexC2pkt.hdr.mh_offset ∧
    cexC2pkt.data.length = cexC2pkt.hdr.mh_len ∧
    cexC2client.vmcorebuf.length + cexC2pkt.hdr.mh_len ≤ VMCORE_BUFSZ ∧
    (handle_vmcore fenvAllOk cexC2client cexC2pkt).1
      = [Act.pwrite 0 bigbuf, Act.sendAck 7] := by
  have hlen : cexC2client.vmcorebuf.length = 131040 :=
    List.length_replicate 131040 170
  refine ⟨?_, ?_, ?_, ?_, ?_⟩
  · intro h
    rw [h] at hlen
    exact absurd hlen (by decide)
  · rw [hlen]
    rfl
  · exact List.length_replicate 32 187
  · rw [hlen]
    decide
  · have hflu : vmcore_flush fenvAllOk
        { cexC2client with any_data_rcvd := true }
        = ([Act.pwrite 0 bigbuf],
           some { cexC2client with
                    any_data_rcvd := true, vmcorebuf := ([] : List Nat) })
        := rfl
    have hmf : vmcore_maybe_flush fenvAllOk
        { cexC2client with any_data_rcvd := true } cexC2pkt
        = vmcore_flush fenvAllOk
            { cexC2client with any_data_rcvd := true } := by
      have hg : VMCORE_BUFSZ <
          ({ cexC2client with any_data_rcvd := true } :
            NetdumpClient).vmcorebuf.length + NETDUMP_DATASIZE := by
        have h1 : ({ cexC2client with any_data_rcvd := true } :
            NetdumpClient).vmcorebuf.length = 131040 :=
          List.length_replicate 131040 170
        rw [h1]
        decide
      unfold vmcore_maybe_flush
      rw [if_pos]
      exact Or.inl hg
    rw [handle_vmcore_staged fenvAllOk cexC2client cexC2pkt _ _
      (hmf.trans hflu)]
    rfl

/-- C2 (amended): staging rules of the write coalescer as implemented.
Empty buffer: base is set to the packet offset and the payload appended.
Non-empty buffer, contiguous packet, and room for a full data unit
(fill + NETDUMP_DATASIZE within the 128 KiB capacity, the check the code
performs in place of a fit check on the actual payload): append without a
flush.  Otherwise flush first and then stage as into an empty buffer (the
session dying instead when that flush fails). -/
theorem C2_stage_amended (fenv : FsEnv) (c : NetdumpClient) (pkt : NetdumpPkt) :
    (c.vmcorebuf = [] →
      handle_vmcore fenv c pkt =
        ([Act.sendAck pkt.hdr.mh_seqno],
         some { c with
                any_data_rcvd := true,
                vmcoreoff := pkt.hdr.mh_offset,
                vmcorebuf := pkt.data })) ∧
    (c.vmcorebuf ≠ [] →
      c.vmcoreoff + c.vmcorebuf.length = pkt.hdr.mh_offset →
      c.vmcorebuf.length + NETDUMP_DATASIZE ≤ VMCORE_BUFSZ →
      handle_vmcore fenv c pkt =
        ([Act.sendAck pkt.hdr.mh_seqno],
         some { c with
                any_data_rcvd := true,
                vmcorebuf := c.vmcorebuf ++ pkt.data })) ∧
    (c.vmcorebuf ≠ [] →
      (c.vmcoreoff + c.vmcorebuf.length ≠ pkt.hdr.mh_offset ∨
        VMCORE_BUFSZ < c.vmcorebuf.length + NETDUMP_DATASIZE) →
      ((fenv.pwriteOk c.vmcoreoff c.vmcorebuf = true →
        handle_vmcore fenv c pkt =
          ([Act.pwrite c.vmcoreoff c.vmcorebuf,
            Act.sendAck pkt.hdr.mh_seqno],
           some { c with
                  any_data_rcvd := true,
                  vmcoreoff := pkt.hdr.mh_offset,
                  vmcorebuf := pkt.data })) ∧
       (fenv.pwriteOk c.vmcoreoff c.vmcorebuf = false →
        handle_vmcore fenv c pkt =
          ([Act.pwrite c.vmcoreoff c.vmcorebuf,
            Act.infoLine "Dump unsuccessful: write error",
            Act.handler "error", Act.freeClient], none)))) := by
  refine ⟨?_, ?_, ?_⟩
  · intro hE
    have hmf : vmcore_maybe_flush fenv { c with any_data_rcvd := true } pkt
        = ([], some { c with any_data_rcvd := true }) := by
      unfold vmcore_maybe_flush
      rw [if_neg]
      simp [hE]
      decide
    rw [handle_vmcore_staged fenv c pkt _ _ hmf]
    simp [hE]
  · intro hne hcontig hfit
    have hmf : vmcore_maybe_flush fenv { c with any_data_rcvd := true } pkt
        = ([], some { c with any_data_rcvd := true }) := by
      unfold vmcore_maybe_flush
      rw [if_neg]
      intro hcond
      rcases hcond with h1 | h2
      · simp at h1
        omega
      · simp at h2
        exact h2.2 hcontig
    rw [handle_vmcore_staged fenv c pkt _ _ hmf]
    have hlz : ({ c with any_data_rcvd := true } :
        NetdumpClient).vmcorebuf.length ≠ 0 := by
      simp [hne]
    simp [if_neg hlz]
    intro h
    exact absurd h hne
  · intro hne hbreak
    have hcond : VMCORE_BUFSZ <
        ({ c with any_data_rcvd := true } :
          NetdumpClient).vmcorebuf.length + NETDUMP_DATASIZE ∨
        (0 < ({ c with any_data_rcvd := true } :
          NetdumpClient).vmcorebuf.length ∧
         ({ c with any_data_rcvd := true } : NetdumpClient).vmcoreoff +
           ({ c with any_data_rcvd := true } :
             NetdumpClient).vmcorebuf.length ≠ pkt.hdr.mh_offset) := by
      rcases hbreak with h | h
      · right
        constructor
        · simpa using List.length_pos.mpr hne
        · simpa using h
      · left
        simpa using h
    have hmf0 : vmcore_maybe_flush fenv { c with any_data_rcvd := true } pkt
        = vmcore_flush fenv { c with any_data_rcvd := true } := by
      unfold vmcore_maybe_flush
      rw [if_pos hcond]
    constructor
    · intro hw
      have hfl : vmcore_flush fenv { c with any_data_rcvd := true }
          = ([Act.pwrite c.vmcoreoff c.vmcorebuf],
             some { c with
                    any_data_rcvd := true,
                    vmcorebuf := ([] : List Nat) }) := by
        unfold vmcore_flush
        rw [if_pos]
        exact hw
      rw [handle_vmcore_staged fenv c pkt _ _ (hmf0.trans hfl)]
      simp
    · intro hw
      have hfl : vmcore_flush fenv { c with any_data_rcvd := true }
          = ([Act.pwrite c.vmcoreoff c.vmcorebuf,
              Act.infoLine "Dump unsuccessful: write error",
              Act.handler "error", Act.freeClient], none) := by
        unfold vmcore_flush
        rw [if_neg]
        simp [hw]
      exact handle_vmcore_aborted fenv c pkt _ (hmf0.trans hfl)

/-- C2 witness: the amended staging theorem applied to an empty-buffer
session and a two-byte VMCORE packet at offset 40. -/
theorem C2_stage_amended_witness :
    handle_vmcore fenvAllOk
      { path := "p", infofilename := "p/info.h.0",
        corefilename := "p/vmcore.h.0", hostname := "h", last_msg := 0,
        ip := 1, any_data_rcvd := false, vmcoreoff := 0, vmcorebuf := [] }
      ⟨⟨9, 3, 2, 40⟩, [1, 2]⟩
      = ([Act.sendAck 9],
         some { path := "p", infofilename := "p/info.h.0",
                corefilename := "p/vmcore.h.0", hostname := "h",
                last_msg := 0, ip := 1, any_data_rcvd := true,
                vmcoreoff := 40, vmcorebuf := [1, 2] }) :=
  (C2_stage_amended fenvAllOk
    { path := "p", infofilename := "p/info.h.0",
      corefilename := "p/vmcore.h.0", hostname := "h", last_msg := 0,
      ip := 1, any_data_rcvd := false, vmcoreoff := 0, vmcorebuf := [] }
    ⟨⟨9, 3, 2, 40⟩, [1, 2]⟩).1 rfl

/-- Shape of handle_finish when the coalescer flush succeeds: fsync, then
the four symlink steps, each failure keeping the (flushed) session, and on
full success the completion line, the acknowledgement, the success handler
and destruction of the session. -/
theorem handle_finish_flushed (fenv : FsEnv) (c : NetdumpClient)
    (pkt : NetdumpPkt)
    (hw : fenv.pwriteOk c.vmcoreoff c.vmcorebuf = true) :
    handle_finish fenv c pkt =
      (if fenv.unlinkRes (lastCoreName c.path c.hostname)
          = UnlinkResult.err then
        ([Act.pwrite c.vmcoreoff c.vmcorebuf, Act.fsyncCore,
          Act.unlinkLast (lastCoreName c.path c.hostname)],
         some { c with vmcorebuf := [] })
      else if fenv.symlinkOk c.corefilename
          (lastCoreName c.path c.hostname) = false then
        ([Act.pwrite c.vmcoreoff c.vmcorebuf, Act.fsyncCore,
          Act.unlinkLast (lastCoreName c.path c.hostname),
          Act.symlinkLast c.corefilename (lastCoreName c.path c.hostname)],
         some { c with vmcorebuf := [] })
      else if fenv.unlinkRes (lastInfoName c.path c.hostname)
          = UnlinkResult.err then
        ([Act.pwrite c.vmcoreoff c.vmcorebuf, Act.fsyncCore,
          Act.unlinkLast (lastCoreName c.path c.hostname),
          Act.symlinkLast c.corefilename (lastCoreName c.path c.hostname),
          Act.unlinkLast (lastInfoName c.path c.hostname)],
         some { c with vmcorebuf := [] })
      else if fenv.symlinkOk c.infofilename
          (lastInfoName c.path c.hostname) = false then
        ([Act.pwrite c.vmcoreoff c.vmcorebuf, Act.fsyncCore,
          Act.unlinkLast (lastCoreName c.path c.hostname),
          Act.symlinkLast c.corefilename (lastCoreName c.path c.hostname),
          Act.unlinkLast (lastInfoName c.path c.hostname),
          Act.symlinkLast c.infofilename (lastInfoName c.path c.hostname)],
         some { c with vmcorebuf := [] })
      else
        ([Act.pwrite c.vmcoreoff c.vmcorebuf, Act.fsyncCore,
          Act.unlinkLast (lastCoreName c.path c.hostname),
          Act.symlinkLast c.corefilename (lastCoreName c.path c.hostname),
          Act.unlinkLast (lastInfoName c.path c.hostname),
          Act.symlinkLast c.infofilename (lastInfoName c.path c.hostname),
          Act.infoLine "Dump complete", Act.sendAck pkt.hdr.mh_seqno,
          Act.handler "success", Act.freeClient], none)) := by
  unfold handle_finish
  have hfl : vmcore_flush fenv c
      = ([Act.pwrite c.vmcoreoff c.vmcorebuf],
         some { c with vmcorebuf := ([] : List Nat) }) := by
    unfold vmcore_flush
    rw [if_pos hw]
  rw [hfl]
  rfl

/-- Shape of handle_finish when the coalescer flush fails: the session is
destroyed through the write-error path and nothing else happens. -/
theorem handle_finish_flush_fail (fenv : FsEnv) (c : NetdumpClient)
    (pkt : NetdumpPkt)
    (hw : fenv.pwriteOk c.vmcoreoff c.vmcorebuf = false) :
    handle_finish fenv c pkt =
      ([Act.pwrite c.vmcoreoff c.vmcorebuf,
        Act.infoLine "Dump unsuccessful: write error",
        Act.handler "error", Act.freeClient], none) := by
  unfold handle_finish
  have hfl : vmcore_flush fenv c
      = ([Act.pwrite c.vmcoreoff c.vmcorebuf,
          Act.infoLine "Dump unsuccessful: write error",
          Act.handler "error", Act.freeClient], none) := by
    unfold vmcore_flush
    rw [if_neg]
    simp [hw]
  rw [hfl]

/-- C5: whenever handle_finish sends the FINISHED acknowledgement or
invokes the handler with reason success, its action sequence starts with
the coalescer flush (the positional write of all buffered bytes) followed
immediately by the fsync of the core file, and the acknowledgement and the
success handler invocation come only after both. -/
theorem C5_flush_fsync_first (fenv : FsEnv) (c : NetdumpClient)
    (pkt : NetdumpPkt)
    (h : Act.sendAck pkt.hdr.mh_seqno ∈ (handle_finish fenv c pkt).1 ∨
         Act.handler "success" ∈ (handle_finish fenv c pkt).1) :
    ∃ rest, (handle_finish fenv c pkt).1
        = Act.pwrite c.vmcoreoff c.vmcorebuf :: Act.fsyncCore :: rest ∧
      Act.sendAck pkt.hdr.mh_seqno ∈ rest ∧
      Act.handler "success" ∈ rest := by
  rcases Bool.eq_false_or_eq_true (fenv.pwriteOk c.vmcoreoff c.vmcorebuf)
    with hw | hw
  case inr =>
    rw [handle_finish_flush_fail fenv c pkt hw] at h
    exfalso
    rcases h with h | h <;> simp at h
  case inl =>
    rw [handle_finish_flushed fenv c pkt hw] at h ⊢
    split_ifs at h ⊢ with h1 h2 h3 h4
    · exfalso
      rcases h with h | h <;> simp at h
    · exfalso
      rcases h with h | h <;> simp at h
    · exfalso
      rcases h with h | h <;> simp at h
    · exfalso
      rcases h with h | h <;> simp at h
    · exact ⟨_, rfl, by simp, by simp⟩

/-- C5 witness: the ordering theorem applied to a session with two staged
bytes at offset 7 and a FINISHED packet with sequence number 6, in the
all-success environment. -/
theorem C5_flush_fsync_first_witness :
    ∃ rest,
      (handle_finish fenvAllOk
        { path := "p", infofilename := "p/info.h.0",
          corefilename := "p/vmcore.h.0", hostname := "h", last_msg := 0,
          ip := 1, any_data_rcvd := true, vmcoreoff := 7, vmcorebuf := [9, 9] }
        ⟨⟨6, 2, 0, 0⟩, []⟩).1
        = Act.pwrite 7 [9, 9] :: Act.fsyncCore :: rest ∧
      Act.sendAck 6 ∈ rest ∧ Act.handler "success" ∈ rest := by
  have hmem : Act.sendAck 6 ∈
      (handle_finish fenvAllOk
        { path := "p", infofilename := "p/info.h.0",
          corefilename := "p/vmcore.h.0", hostname := "h", last_msg := 0,
          ip := 1, any_data_rcvd := true, vmcoreoff := 7, vmcorebuf := [9, 9] }
        ⟨⟨6, 2, 0, 0⟩, []⟩).1 := by decide
  exact C5_flush_fsync_first _ _ _ (Or.inl hmem)

/-- C9: if, after a successful flush, unlinking an existing .last symlink
fails with an error other than ENOENT or creating either .last symlink
fails, handle_finish stops: no acknowledgement is sent, no handler is
invoked, the Dump complete line is not written, the session is not
destroyed (it survives with an emptied staging buffer, still registered
and so still subject to the timeout sweep). -/
theorem C9_symlink_abort (fenv : FsEnv) (c : NetdumpClient) (pkt : NetdumpPkt)
    (hw : fenv.pwriteOk c.vmcoreoff c.vmcorebuf = true)
    (hfail : fenv.unlinkRes (lastCoreName c.path c.hostname)
        = UnlinkResult.err ∨
      fenv.symlinkOk c.corefilename (lastCoreName c.path c.hostname)
        = false ∨
      fenv.unlinkRes (lastInfoName c.path c.hostname) = UnlinkResult.err ∨
      fenv.symlinkOk c.infofilename (lastInfoName c.path c.hostname)
        = false) :
    (handle_finish fenv c pkt).2 = some { c with vmcorebuf := [] } ∧
    (∀ s, Act.sendAck s ∉ (handle_finish fenv c pkt).1) ∧
    (∀ r, Act.handler r ∉ (handle_finish fenv c pkt).1) ∧
    Act.infoLine "Dump complete" ∉ (handle_finish fenv c pkt).1 ∧
    Act.freeClient ∉ (handle_finish fenv c pkt).1 := by
  rw [handle_finish_flushed fenv c pkt hw]
  split_ifs with h1 h2 h3 h4
  · exact ⟨rfl, by simp, by simp, by simp, by simp⟩
  · exact ⟨rfl, by simp, by simp, by simp, by simp⟩
  · exact ⟨rfl, by simp, by simp, by simp, by simp⟩
  · exact ⟨rfl, by simp, by simp, by simp, by simp⟩
  · exfalso
    rcases hfail with h | h | h | h
    · exact h1 h
    · exact h2 h
    · exact h3 h
    · exact h4 h

/-- C9 witness: the abort theorem applied in an environment whose
symlinkat always fails, to a session with two staged bytes. -/
theorem C9_symlink_abort_witness :
    (handle_finish ⟨fun _ _ => true, fun _ => UnlinkResult.enoent,
        fun _ _ => false⟩
      { path := "p", infofilename := "p/info.h.0",
        corefilename := "p/vmcore.h.0", hostname := "h", last_msg := 0,
        ip := 1, any_data_rcvd := true, vmcoreoff := 7, vmcorebuf := [9, 9] }
      ⟨⟨6, 2, 0, 0⟩, []⟩).2
      = some { path := "p", infofilename := "p/info.h.0",
               corefilename := "p/vmcore.h.0", hostname := "h",
               last_msg := 0, ip := 1, any_data_rcvd := true,
               vmcoreoff := 7, vmcorebuf := [] } ∧
    (∀ s, Act.sendAck s ∉
      (handle_finish ⟨fun _ _ => true, fun _ => UnlinkResult.enoent,
          fun _ _ => false⟩
        { path := "p", infofilename := "p/info.h.0",
          corefilename := "p/vmcore.h.0", hostname := "h", last_msg := 0,
          ip := 1, any_data_rcvd := true, vmcoreoff := 7,
          vmcorebuf := [9, 9] }
        ⟨⟨6, 2, 0, 0⟩, []⟩).1) ∧
    (∀ r, Act.handler r ∉
      (handle_finish ⟨fun _ _ => true, fun _ => UnlinkResult.enoent,
          fun _ _ => false⟩
        { path := "p", infofilename := "p/info.h.0",
          corefilename := "p/vmcore.h.0", hostname := "h", last_msg := 0,
          ip := 1, any_data_rcvd := true, vmcoreoff := 7,
          vmcorebuf := [9, 9] }
        ⟨⟨6, 2, 0, 0⟩, []⟩).1) ∧
    Act.infoLine "Dump complete" ∉
      (handle_finish ⟨fun _ _ => true, fun _ => UnlinkResult.enoent,
          fun _ _ => false⟩
        { path := "p", infofilename := "p/info.h.0",
          corefilename := "p/vmcore.h.0", hostname := "h", last_msg := 0,
          ip := 1, any_data_rcvd := true, vmcoreoff := 7,
          vmcorebuf := [9, 9] }
        ⟨⟨6, 2, 0, 0⟩, []⟩).1 ∧
    Act.freeClient ∉
      (handle_finish ⟨fun _ _ => true, fun _ => UnlinkResult.enoent,
          fun _ _ => false⟩
        { path := "p", infofilename := "p/info.h.0",
          corefilename := "p/vmcore.h.0", hostname := "h", last_msg := 0,
          ip := 1, any_data_rcvd := true, vmcoreoff := 7,
          vmcorebuf := [9, 9] }
        ⟨⟨6, 2, 0, 0⟩, []⟩).1 :=
  C9_symlink_abort _ _ _ rfl (Or.inr (Or.inl rfl))

/-- The three outcomes of the conditional flush: no flush needed, flush
succeeded (buffer emptied), or flush failed (session destroyed, which
happens only when the positional write fails). -/
theorem vmcore_maybe_flush_cases (fenv : FsEnv) (c : NetdumpClient)
    (pkt : NetdumpPkt) :
    vmcore_maybe_flush fenv c pkt = ([], some c) ∨
    vmcore_maybe_flush fenv c pkt
      = ([Act.pwrite c.vmcoreoff c.vmcorebuf],
         some { c with vmcorebuf := [] }) ∨
    (vmcore_maybe_flush fenv c pkt
      = ([Act.pwrite c.vmcoreoff c.vmcorebuf,
          Act.infoLine "Dump unsuccessful: write error",
          Act.handler "error", Act.freeClient], none) ∧
      fenv.pwriteOk c.vmcoreoff c.vmcorebuf = false) := by
  unfold vmcore_maybe_flush vmcore_flush
  split_ifs with h1 h2
  · right
    left
    rfl
  · right
    right
    exact ⟨rfl, by rwa [Bool.not_eq_true] at h2⟩
  · left
    rfl

/-- Acknowledgements of handle_vmcore: at most one, always carrying the
packet sequence number, and guaranteed when the positional write
succeeds. -/
theorem ackSeqnos_handle_vmcore (fenv : FsEnv) (c : NetdumpClient)
    (pkt : NetdumpPkt) :
    (ackSeqnos (handle_vmcore fenv c pkt).1 = [] ∨
     ackSeqnos (handle_vmcore fenv c pkt).1 = [pkt.hdr.mh_seqno]) ∧
    (fenv.pwriteOk c.vmcoreoff c.vmcorebuf = true →
      ackSeqnos (handle_vmcore fenv c pkt).1 = [pkt.hdr.mh_seqno]) := by
  rcases vmcore_maybe_flush_cases fenv { c with any_data_rcvd := true } pkt
    with hm | hm | ⟨hm, hpw⟩
  · rw [handle_vmcore_staged fenv c pkt _ _ hm]
    constructor
    · right
      simp [ackSeqnos]
    · intro _
      simp [ackSeqnos]
  · rw [handle_vmcore_staged fenv c pkt _ _ hm]
    constructor
    · right
      simp [ackSeqnos]
    · intro _
      simp [ackSeqnos]
  · rw [handle_vmcore_aborted fenv c pkt _ hm]
    constructor
    · left
      simp [ackSeqnos]
    · intro hw
      exact absurd hpw (by simp [hw])

/-- Acknowledgements of handle_finish: at most one, always carrying the
packet sequence number, and guaranteed when the flush and all four
symlink-replacement steps succeed. -/
theorem ackSeqnos_handle_finish (fenv : FsEnv) (c : NetdumpClient)
    (pkt : NetdumpPkt) :
    (ackSeqnos (handle_finish fenv c pkt).1 = [] ∨
     ackSeqnos (handle_finish fenv c pkt).1 = [pkt.hdr.mh_seqno]) ∧
    (fenv.pwriteOk c.vmcoreoff c.vmcorebuf = true →
      fenv.unlinkRes (lastCoreName c.path c.hostname) ≠ UnlinkResult.err →
      fenv.symlinkOk c.corefilename (lastCoreName c.path c.hostname)
        = true →
      fenv.unlinkRes (lastInfoName c.path c.hostname) ≠ UnlinkResult.err →
      fenv.symlinkOk c.infofilename (lastInfoName c.path c.hostname)
        = true →
      ackSeqnos (handle_finish fenv c pkt).1 = [pkt.hdr.mh_seqno]) := by
  rcases Bool.eq_false_or_eq_true (fenv.pwriteOk c.vmcoreoff c.vmcorebuf)
    with hw | hw
  case inr =>
    rw [handle_finish_flush_fail fenv c pkt hw]
    constructor
    · left
      simp [ackSeqnos]
    · intro h
      rw [h] at hw
      exact absurd hw (by decide)
  case inl =>
    rw [handle_finish_flushed fenv c pkt hw]
    split_ifs with h1 h2 h3 h4
    · exact ⟨Or.inl (by simp [ackSeqnos]), fun _ hu _ _ _ => absurd h1 hu⟩
    · refine ⟨Or.inl (by simp [ackSeqnos]), fun _ _ hs _ _ => ?_⟩
      rw [hs] at h2
      exact absurd h2 (by decide)
    · exact ⟨Or.inl (by simp [ackSeqnos]), fun _ _ _ hu _ => absurd h3 hu⟩
    · refine ⟨Or.inl (by simp [ackSeqnos]), fun _ _ _ _ hs => ?_⟩
      rw [hs] at h4
      exact absurd h4 (by decide)
    · exact ⟨Or.inr (by simp [ackSeqnos]), fun _ _ _ _ _ => by
        simp [ackSeqnos]⟩

/-- client_event on a datagram that passes both size checks: refresh
last_msg from a fresh time() sample and dispatch on the message type. -/
theorem client_event_dispatch (fenv : FsEnv) (clock : Nat → Int) (k : Nat)
    (c : NetdumpClient) (dlen : Nat) (pkt : NetdumpPkt)
    (h1 : NETDUMP_MSG_HDR_SIZE ≤ dlen)
    (h2 : dlen - NETDUMP_MSG_HDR_SIZE = pkt.hdr.mh_len) :
    client_event fenv clock k c dlen pkt =
      ((if pkt.hdr.mh_type = NETDUMP_KDH then
          handle_kdh { c with last_msg := clock k } pkt
        else if pkt.hdr.mh_type = NETDUMP_VMCORE then
          handle_vmcore fenv { c with last_msg := clock k } pkt
        else if pkt.hdr.mh_type = NETDUMP_FINISHED then
          handle_finish fenv { c with last_msg := clock k } pkt
        else ([], some { c with last_msg := clock k })), k + 1) := by
  unfold client_event
  rw [if_neg (by omega), if_neg (not_not_intro h2)]

/-- C3 (amended): for every inbound packet that passes the size checks
and is dispatched to a session handler, at most one ACK is sent and any
ACK carries the inbound sequence number; exactly one ACK is guaranteed
unless the handler aborts early, namely for a KDH at least as large as the
kernel dump header, for a VMCORE whose (possible) flush write succeeds,
and for a FINISHED whose flush, unlinks and symlinks all succeed. -/
theorem C3_one_ack_amended (fenv : FsEnv) (clock : Nat → Int) (k : Nat)
    (c : NetdumpClient) (dlen : Nat) (pkt : NetdumpPkt)
    (h1 : NETDUMP_MSG_HDR_SIZE ≤ dlen)
    (h2 : dlen - NETDUMP_MSG_HDR_SIZE = pkt.hdr.mh_len)
    (h3 : pkt.hdr.mh_type = NETDUMP_KDH ∨ pkt.hdr.mh_type = NETDUMP_VMCORE ∨
      pkt.hdr.mh_type = NETDUMP_FINISHED) :
    (ackSeqnos (client_event fenv clock k c dlen pkt).1.1 = [] ∨
     ackSeqnos (client_event fenv clock k c dlen pkt).1.1
       = [pkt.hdr.mh_seqno]) ∧
    (pkt.hdr.mh_type = NETDUMP_KDH →
      KERNELDUMPHEADER_SIZE ≤ pkt.hdr.mh_len →
      ackSeqnos (client_event fenv clock k c dlen pkt).1.1
        = [pkt.hdr.mh_seqno]) ∧
    (pkt.hdr.mh_type = NETDUMP_VMCORE →
      fenv.pwriteOk c.vmcoreoff c.vmcorebuf = true →
      ackSeqnos (client_event fenv clock k c dlen pkt).1.1
        = [pkt.hdr.mh_seqno]) ∧
    (pkt.hdr.mh_type = NETDUMP_FINISHED →
      fenv.pwriteOk c.vmcoreoff c.vmcorebuf = true →
      fenv.unlinkRes (lastCoreName c.path c.hostname) ≠ UnlinkResult.err →
      fenv.symlinkOk c.corefilename (lastCoreName c.path c.hostname)
        = true →
      fenv.unlinkRes (lastInfoName c.path c.hostname) ≠ UnlinkResult.err →
      fenv.symlinkOk c.infofilename (lastInfoName c.path c.hostname)
        = true →
      ackSeqnos (client_event fenv clock k c dlen pkt).1.1
        = [pkt.hdr.mh_seqno]) := by
  rw [client_event_dispatch fenv clock k c dlen pkt h1 h2]
  rcases h3 with ht | ht | ht
  · rw [if_pos ht]
    refine ⟨?_, ?_, ?_, ?_⟩
    · unfold handle_kdh
      split_ifs with hk
      · left
        simp [ackSeqnos]
      · right
        simp [ackSeqnos]
    · intro _ hbig
      unfold handle_kdh
      rw [if_neg (by omega)]
      simp [ackSeqnos]
    · intro hv
      rw [ht] at hv
      exact absurd hv (by decide)
    · intro hv
      rw [ht] at hv
      exact absurd hv (by decide)
  · rw [if_neg (by rw [ht]; decide), if_pos ht]
    refine ⟨?_, ?_, ?_, ?_⟩
    · exact (ackSeqnos_handle_vmcore fenv
        { c with last_msg := clock k } pkt).1
    · intro hv
      rw [ht] at hv
      exact absurd hv (by decide)
    · intro _ hw
      exact (ackSeqnos_handle_vmcore fenv
        { c with last_msg := clock k } pkt).2 hw
    · intro hv
      rw [ht] at hv
      exact absurd hv (by decide)
  · rw [if_neg (by rw [ht]; decide), if_neg (by rw [ht]; decide),
      if_pos ht]
    refine ⟨?_, ?_, ?_, ?_⟩
    · exact (ackSeqnos_handle_finish fenv
        { c with last_msg := clock k } pkt).1
    · intro hv
      rw [ht] at hv
      exact absurd hv (by decide)
    · intro hv
      rw [ht] at hv
      exact absurd hv (by decide)
    · intro _ hw hu1 hs1 hu2 hs2
      exact (ackSeqnos_handle_finish fenv
        { c with last_msg := clock k } pkt).2 hw hu1 hs1 hu2 hs2

/-- C3 counterexample: a KDH packet with mh_len = 0 in a datagram of
exactly header size passes both size checks and is dispatched to
handle_kdh, which writes the Bad KDH info line and returns without
sending any ACK - refuting the claim that every dispatched packet is
answered by exactly one ACK. -/
theorem C3_bad_kdh_cex :
    NETDUMP_MSG_HDR_SIZE ≤ NETDUMP_MSG_HDR_SIZE ∧
    NETDUMP_MSG_HDR_SIZE - NETDUMP_MSG_HDR_SIZE = (0 : Nat) ∧
    (client_event fenvAllOk (fun _ => 0) 1
      { path := "p", infofilename := "p/info.h.0",
        corefilename := "p/vmcore.h.0", hostname := "h", last_msg := 0,
        ip := 1, any_data_rcvd := false, vmcoreoff := 0, vmcorebuf := [] }
      NETDUMP_MSG_HDR_SIZE ⟨⟨4, NETDUMP_KDH, 0, 0⟩, []⟩).1.1
      = [Act.infoLine "Bad KDH: packet too small"] ∧
    ackSeqnos (client_event fenvAllOk (fun _ => 0) 1
      { path := "p", infofilename := "p/info.h.0",
        corefilename := "p/vmcore.h.0", hostname := "h", last_msg := 0,
        ip := 1, any_data_rcvd := false, vmcoreoff := 0, vmcorebuf := [] }
      NETDUMP_MSG_HDR_SIZE ⟨⟨4, NETDUMP_KDH, 0, 0⟩, []⟩).1.1 = [] := by
  decide

/-- C3 witness: the amended theorem applied to a well-formed KDH packet
(mh_len = 512) yields exactly one ACK with its sequence number. -/
theorem C3_one_ack_amended_witness :
    ackSeqnos (client_event fenvAllOk (fun _ => 0) 1
      { path := "p", infofilename := "p/info.h.0",
        corefilename := "p/vmcore.h.0", hostname := "h", last_msg := 0,
        ip := 1, any_data_rcvd := false, vmcoreoff := 0, vmcorebuf := [] }
      532 ⟨⟨4, 1, 512, 0⟩, List.replicate 512 0⟩).1.1 = [4] :=
  (C3_one_ack_amended fenvAllOk (fun _ => 0) 1
    { path := "p", infofilename := "p/info.h.0",
      corefilename := "p/vmcore.h.0", hostname := "h", last_msg := 0,
      ip := 1, any_data_rcvd := false, vmcoreoff := 0, vmcorebuf := [] }
    532 ⟨⟨4, 1, 512, 0⟩, List.replicate 512 0⟩
    (by decide) (by decide) (Or.inl rfl)).2.1 rfl (by decide)

/-- handle_finish never changes any_data_rcvd on a surviving session. -/
theorem handle_finish_keeps_flag (fenv : FsEnv) (c : NetdumpClient)
    (pkt : NetdumpPkt) (acts : List Act) (c1 : NetdumpClient)
    (h : handle_finish fenv c pkt = (acts, some c1)) :
    c1.any_data_rcvd = c.any_data_rcvd := by
  rcases Bool.eq_false_or_eq_true (fenv.pwriteOk c.vmcoreoff c.vmcorebuf)
    with hw | hw
  case inr =>
    rw [handle_finish_flush_fail fenv c pkt hw] at h
    simp at h
  case inl =>
    rw [handle_finish_flushed fenv c pkt hw] at h
    split_ifs at h
    · simp only [Prod.mk.injEq, Option.some.injEq] at h
      rw [← h.2]
    · simp only [Prod.mk.injEq, Option.some.injEq] at h
      rw [← h.2]
    · simp only [Prod.mk.injEq, Option.some.injEq] at h
      rw [← h.2]
    · simp only [Prod.mk.injEq, Option.some.injEq] at h
      rw [← h.2]
    · simp at h

/-- C4: (i) a session whose any_data_rcvd is false acquires the flag only
through a packet that passed both datagram size checks and was dispatched
as KDH or VMCORE (a KDH-or-later packet); dropped datagrams, unknown
types and FINISHED never set it; (ii) a freshly allocated session starts
with the flag false; (iii) a herald for a registered session whose flag is
still false leaves the registry and the session untouched and only re-ACKs
the herald sequence number. -/
theorem C4_flag_until_data :
    (∀ (fenv : FsEnv) (clock : Nat → Int) (k : Nat) (c : NetdumpClient)
        (dlen : Nat) (pkt : NetdumpPkt) (acts : List Act)
        (c1 : NetdumpClient) (k1 : Nat),
      c.any_data_rcvd = false →
      client_event fenv clock k c dlen pkt = ((acts, some c1), k1) →
      c1.any_data_rcvd = true →
      NETDUMP_MSG_HDR_SIZE ≤ dlen ∧
      dlen - NETDUMP_MSG_HDR_SIZE = pkt.hdr.mh_len ∧
      (pkt.hdr.mh_type = NETDUMP_KDH ∨
        pkt.hdr.mh_type = NETDUMP_VMCORE)) ∧
    (∀ (aenv : AllocEnv) (g_now : Int) (ip : Nat) (path : String)
        (c : NetdumpClient),
      alloc_client aenv g_now ip path = some c →
      c.any_data_rcvd = false) ∧
    (∀ (aenv : AllocEnv) (g_now : Int) (cs : List NetdumpClient)
        (h : Herald) (c : NetdumpClient),
      findClient cs h.ip = some c →
      c.any_data_rcvd = false →
      server_event aenv g_now cs h = ([Act.sendAck h.seqno], cs)) := by
  refine ⟨?_, ?_, ?_⟩
  · intro fenv clock k c dlen pkt acts c1 k1 hany heq hany1
    by_cases hc1 : dlen < NETDUMP_MSG_HDR_SIZE
    · unfold client_event at heq
      rw [if_pos hc1] at heq
      simp only [Prod.mk.injEq, Option.some.injEq] at heq
      rw [← heq.1.2, hany] at hany1
      exact absurd hany1 (by decide)
    · by_cases hc2 : dlen - NETDUMP_MSG_HDR_SIZE ≠ pkt.hdr.mh_len
      · unfold client_event at heq
        rw [if_neg hc1, if_pos hc2] at heq
        simp only [Prod.mk.injEq, Option.some.injEq] at heq
        rw [← heq.1.2, hany] at hany1
        exact absurd hany1 (by decide)
      · rw [client_event_dispatch fenv clock k c dlen pkt (by omega)
          (not_not.mp hc2)] at heq
        refine ⟨by omega, not_not.mp hc2, ?_⟩
        by_cases ht1 : pkt.hdr.mh_type = NETDUMP_KDH
        · exact Or.inl ht1
        · by_cases ht2 : pkt.hdr.mh_type = NETDUMP_VMCORE
          · exact Or.inr ht2
          · exfalso
            rw [if_neg ht1, if_neg ht2] at heq
            by_cases ht3 : pkt.hdr.mh_type = NETDUMP_FINISHED
            · rw [if_pos ht3] at heq
              simp only [Prod.mk.injEq] at heq
              have hk := handle_finish_keeps_flag fenv
                { c with last_msg := clock k } pkt acts c1 ?_
              · rw [hany1] at hk
                have : ({ c with last_msg := clock k } :
                    NetdumpClient).any_data_rcvd = false := hany
                rw [← hk] at this
                exact absurd this (by decide)
              · rcases heq with ⟨h1, _⟩
                exact h1
            · rw [if_neg ht3] at heq
              simp only [Prod.mk.injEq, Option.some.injEq] at heq
              rw [← heq.1.2] at hany1
              have : ({ c with last_msg := clock k } :
                  NetdumpClient).any_data_rcvd = false := hany
              rw [hany1] at this
              exact absurd this (by decide)
  · intro aenv g_now ip path c h
    unfold alloc_client at h
    rcases he : aenv.hostnameResult with _ | host
    · rw [he] at h
      simp at h
    · rw [he] at h
      rcases hs : (scanIdx aenv (List.range MAX_DUMPS)).2 with _ | i
      · rw [hs] at h
        simp at h
      · rw [hs] at h
        split_ifs at h
        simp only [Option.some.injEq] at h
        subst h
        rfl
  · intro aenv g_now cs h c hfind hany
    unfold server_event
    rw [hfind]
    exact if_pos hany

/-- C4 witness: the three parts applied at concrete inputs: a VMCORE
packet setting the flag, a concrete allocation, and a herald retransmit
that is re-ACKed with the registry unchanged. -/
theorem C4_flag_until_data_witness :
    (NETDUMP_MSG_HDR_SIZE ≤ 23 ∧ 23 - NETDUMP_MSG_HDR_SIZE = 3 ∧
      ((3 : Nat) = NETDUMP_KDH ∨ (3 : Nat) = NETDUMP_VMCORE)) ∧
    ({ path := "p", infofilename := "p/info.h.0",
       corefilename := "p/vmcore.h.0", hostname := "h", last_msg := 42,
       ip := 7, any_data_rcvd := false, vmcoreoff := 0,
       vmcorebuf := [] } : NetdumpClient).any_data_rcvd = false ∧
    server_event ⟨some "h", fun _ => true, fun _ => true, fun _ => true,
        true⟩ 50
      [{ path := "p", infofilename := "p/info.h.0",
         corefilename := "p/vmcore.h.0", hostname := "h", last_msg := 0,
         ip := 1, any_data_rcvd := false, vmcoreoff := 0, vmcorebuf := [] }]
      ⟨1, 5, "p"⟩
      = ([Act.sendAck 5],
         [{ path := "p", infofilename := "p/info.h.0",
            corefilename := "p/vmcore.h.0", hostname := "h", last_msg := 0,
            ip := 1, any_data_rcvd := false, vmcoreoff := 0,
            vmcorebuf := [] }]) :=
  ⟨C4_flag_until_data.1 fenvAllOk (fun _ => 50) 1
    { path := "p", infofilename := "p/info.h.0",
      corefilename := "p/vmcore.h.0", hostname := "h", last_msg := 0,
      ip := 1, any_data_rcvd := false, vmcoreoff := 0, vmcorebuf := [] }
    23 ⟨⟨5, 3, 3, 0⟩, [1, 2, 3]⟩ [Act.sendAck 5]
    { path := "p", infofilename := "p/info.h.0",
      corefilename := "p/vmcore.h.0", hostname := "h", last_msg := 50,
      ip := 1, any_data_rcvd := true, vmcoreoff := 0, vmcorebuf := [1, 2, 3] }
    2 rfl (by decide) rfl,
   C4_flag_until_data.2.1 ⟨some "h", fun _ => true, fun _ => true,
      fun _ => true, true⟩ 42 7 "p"
    { path := "p", infofilename := "p/info.h.0",
      corefilename := "p/vmcore.h.0", hostname := "h", last_msg := 42,
      ip := 7, any_data_rcvd := false, vmcoreoff := 0, vmcorebuf := [] }
    (by decide),
   C4_flag_until_data.2.2 ⟨some "h", fun _ => true, fun _ => true,
      fun _ => true, true⟩ 50
    [{ path := "p", infofilename := "p/info.h.0",
       corefilename := "p/vmcore.h.0", hostname := "h", last_msg := 0,
       ip := 1, any_data_rcvd := false, vmcoreoff := 0, vmcorebuf := [] }]
    ⟨1, 5, "p"⟩
    { path := "p", infofilename := "p/info.h.0",
      corefilename := "p/vmcore.h.0", hostname := "h", last_msg := 0,
      ip := 1, any_data_rcvd := false, vmcoreoff := 0, vmcorebuf := [] }
    (by decide) rfl⟩

/-- The filename scan visits candidate indices in list order: its trace is
the per-index failure blocks of every index before the first usable one,
followed by the successful block when one exists. -/
theorem scanIdx_trace (aenv : AllocEnv) :
    ∀ l : List Nat, (scanIdx aenv l).1 =
      (l.takeWhile (fun i => !goodIdx aenv i)).flatMap (idxActs aenv) ++
        ((scanIdx aenv l).2.elim [] (idxActs aenv)) := by
  intro l
  induction l with
  | nil => rfl
  | cons i is ih =>
      rcases hg : goodIdx aenv i with _ | _
      · unfold scanIdx
        rw [hg]
        simp [List.takeWhile_cons, hg, List.flatMap_cons,
          List.append_assoc, ih]
      · unfold scanIdx
        rw [hg]
        simp only [if_true, List.takeWhile_cons, hg, Bool.not_true,
          List.flatMap_nil, Option.elim_some, List.nil_append]
        rfl

/-- A successful scan returns a candidate index that is usable. -/
theorem scanIdx_some (aenv : AllocEnv) :
    ∀ (l : List Nat) (i : Nat), (scanIdx aenv l).2 = some i →
      i ∈ l ∧ goodIdx aenv i = true := by
  intro l
  induction l with
  | nil => intro i h; exact absurd h (by simp [scanIdx])
  | cons j is ih =>
      intro i h
      unfold scanIdx at h
      rcases hg : goodIdx aenv j with _ | _
      · rw [hg] at h
        simp only [Bool.false_eq_true, if_false] at h
        rcases ih i h with ⟨hm, hgood⟩
        exact ⟨List.mem_cons_of_mem j hm, hgood⟩
      · rw [hg] at h
        simp only [if_true, Option.some.injEq] at h
        subst h
        exact ⟨List.mem_cons_self _ _, hg⟩

/-- On a strictly increasing candidate list the scan returns the first
usable index: every smaller candidate is unusable. -/
theorem scanIdx_first (aenv : AllocEnv) :
    ∀ l : List Nat, l.Pairwise (· < ·) →
      ∀ i, (scanIdx aenv l).2 = some i →
        ∀ j ∈ l, j < i → goodIdx aenv j = false := by
  intro l
  induction l with
  | nil => intro _ i h; exact absurd h (by simp [scanIdx])
  | cons a is ih =>
      intro hp i h j hj hji
      rcases List.pairwise_cons.mp hp with ⟨ha, hp'⟩
      unfold scanIdx at h
      rcases hg : goodIdx aenv a with _ | _
      · rw [hg] at h
        simp only [Bool.false_eq_true, if_false] at h
        rcases hj with _ | hj'
        · exact hg
        · exact ih hp' i h j (by assumption) hji
      · rw [hg] at h
        simp only [if_true, Option.some.injEq] at h
        subst h
        rcases hj with _ | hj'
        · omega
        · have := ha j (by assumption)
          omega

/-- A failed scan means no candidate index was usable. -/
theorem scanIdx_none (aenv : AllocEnv) :
    ∀ l : List Nat, (scanIdx aenv l).2 = none →
      ∀ j ∈ l, goodIdx aenv j = false := by
  intro l
  induction l with
  | nil => intro _ j hj; exact absurd hj (by simp)
  | cons a is ih =>
      intro h j hj
      unfold scanIdx at h
      rcases hg : goodIdx aenv a with _ | _
      · rw [hg] at h
        simp only [Bool.false_eq_true, if_false] at h
        rcases hj with _ | hj'
        · exact hg
        · exact ih h j (by assumption)
      · rw [hg] at h
        simp at h

/-- The core file is attempted at an index only after the info file was
created and fdopened successfully at that same index. -/
theorem idxActs_openCore (aenv : AllocEnv) (i j : Nat) (b : Bool)
    (h : AllocAct.openCore i b ∈ idxActs aenv j) :
    i = j ∧ aenv.infoOpenOk j = true ∧ aenv.fdopenOk j = true := by
  unfold idxActs at h
  split_ifs at h with h1 h2 h3
  · simp at h
  · simp at h
  · simp at h
    exact ⟨h.1, by simpa using h1, by simpa using h2⟩
  · simp at h
    exact ⟨h.1, by simpa using h1, by simpa using h2⟩

/-- When the core-file creation fails, the same iteration removes the
just-created info file. -/
theorem idxActs_coreFail_unlink (aenv : AllocEnv) (i j : Nat)
    (h : AllocAct.openCore i false ∈ idxActs aenv j) :
    AllocAct.unlinkInfo j ∈ idxActs aenv j := by
  unfold idxActs at h ⊢
  split_ifs at h with h1 h2 h3
  · simp at h
  · simp at h
  · simp [h1, h2, h3]
  · simp at h

/-- Scan step at a usable index: stop with that index. -/
theorem scanIdx_cons_good (aenv : AllocEnv) (i : Nat) (is : List Nat)
    (hg : goodIdx aenv i = true) :
    scanIdx aenv (i :: is) = (idxActs aenv i, some i) := by
  simp [scanIdx, hg]

/-- Scan step at an unusable index: emit its block and continue. -/
theorem scanIdx_cons_bad (aenv : AllocEnv) (i : Nat) (is : List Nat)
    (hg : goodIdx aenv i = false) :
    scanIdx aenv (i :: is)
      = (idxActs aenv i ++ (scanIdx aenv is).1, (scanIdx aenv is).2) := by
  simp [scanIdx, hg]

/-- Every action of the scan trace belongs to some per-index block whose
actions all appear in the trace. -/
theorem scanIdx_block_mem (aenv : AllocEnv) :
    ∀ (l : List Nat) (a : AllocAct), a ∈ (scanIdx aenv l).1 →
      ∃ j, a ∈ idxActs aenv j ∧
        ∀ b ∈ idxActs aenv j, b ∈ (scanIdx aenv l).1 := by
  intro l
  induction l with
  | nil => intro a h; exact absurd h (by simp [scanIdx])
  | cons i is ih =>
      intro a h
      rcases hg : goodIdx aenv i with _ | _
      · rw [scanIdx_cons_bad aenv i is hg] at h ⊢
        rcases List.mem_append.mp h with h' | h'
        · exact ⟨i, h', fun b hb => List.mem_append_left _ hb⟩
        · rcases ih a h' with ⟨j, hj1, hj2⟩
          exact ⟨j, hj1, fun b hb => List.mem_append_right _ (hj2 b hb)⟩
      · rw [scanIdx_cons_good aenv i is hg] at h ⊢
        exact ⟨i, h, fun b hb => hb⟩

/-- C7: filename allocation tries indices 0 through MAX_DUMPS-1 in order
(the trace is the concatenation of per-index blocks up to the first usable
index); the core file is only ever attempted at an index where the info
file was created (exclusively) and fdopened first; a failed core creation
removes the info file of the same index; the scan result is the first
index where info, fdopen and core all succeed, and its absence means every
index failed; a successfully allocated session holds the info and core
filenames at that same index; and when no index is usable, alloc_client
fails. -/
theorem C7_alloc_scan (aenv : AllocEnv) :
    ((scanIdx aenv (List.range MAX_DUMPS)).1 =
      ((List.range MAX_DUMPS).takeWhile (fun i => !goodIdx aenv i)).flatMap
        (idxActs aenv) ++
        ((scanIdx aenv (List.range MAX_DUMPS)).2.elim [] (idxActs aenv))) ∧
    (∀ i b, AllocAct.openCore i b ∈ (scanIdx aenv (List.range MAX_DUMPS)).1 →
      aenv.infoOpenOk i = true ∧ aenv.fdopenOk i = true) ∧
    (∀ i, AllocAct.openCore i false ∈
        (scanIdx aenv (List.range MAX_DUMPS)).1 →
      AllocAct.unlinkInfo i ∈ (scanIdx aenv (List.range MAX_DUMPS)).1) ∧
    (∀ i, (scanIdx aenv (List.range MAX_DUMPS)).2 = some i →
      i < MAX_DUMPS ∧ goodIdx aenv i = true ∧
        ∀ j < i, goodIdx aenv j = false) ∧
    ((scanIdx aenv (List.range MAX_DUMPS)).2 = none →
      ∀ i < MAX_DUMPS, goodIdx aenv i = false) ∧
    (∀ (g_now : Int) (ip : Nat) (path : String) (c : NetdumpClient),
      alloc_client aenv g_now ip path = some c →
      ∃ i host, aenv.hostnameResult = some host ∧
        (scanIdx aenv (List.range MAX_DUMPS)).2 = some i ∧
        c.infofilename = infoName path host i ∧
        c.corefilename = coreName path host i) ∧
    ((scanIdx aenv (List.range MAX_DUMPS)).2 = none →
      ∀ (g_now : Int) (ip : Nat) (path : String),
        alloc_client aenv g_now ip path = none) := by
  refine ⟨scanIdx_trace aenv (List.range MAX_DUMPS), ?_, ?_, ?_, ?_, ?_, ?_⟩
  · intro i b h
    rcases scanIdx_block_mem aenv (List.range MAX_DUMPS) _ h with ⟨j, hj1, _⟩
    rcases idxActs_openCore aenv i j b hj1 with ⟨hij, hi, hf⟩
    subst hij
    exact ⟨hi, hf⟩
  · intro i h
    rcases scanIdx_block_mem aenv (List.range MAX_DUMPS) _ h
      with ⟨j, hj1, hj2⟩
    rcases idxActs_openCore aenv i j false hj1 with ⟨hij, _, _⟩
    subst hij
    exact hj2 _ (idxActs_coreFail_unlink aenv i i hj1)
  · intro i h
    rcases scanIdx_some aenv (List.range MAX_DUMPS) i h with ⟨hm, hg⟩
    refine ⟨List.mem_range.mp hm, hg, fun j hji => ?_⟩
    exact scanIdx_first aenv (List.range MAX_DUMPS)
      (List.sorted_lt_range MAX_DUMPS) i h j
      (List.mem_range.mpr (Nat.lt_trans hji (List.mem_range.mp hm))) hji
  · intro h i hi
    exact scanIdx_none aenv (List.range MAX_DUMPS) h i (List.mem_range.mpr hi)
  · intro g_now ip path c h
    unfold alloc_client at h
    rcases he : aenv.hostnameResult with _ | host
    · rw [he] at h
      simp at h
    · rw [he] at h
      rcases hs : (scanIdx aenv (List.range MAX_DUMPS)).2 with _ | i
      · rw [hs] at h
        simp at h
      · rw [hs] at h
        split_ifs at h
        simp only [Option.some.injEq] at h
        subst h
        exact ⟨i, host, rfl, rfl, rfl, rfl⟩
  · intro hs g_now ip path
    unfold alloc_client
    rcases he : aenv.hostnameResult with _ | host
    · rfl
    · rw [hs]

def aenvW : AllocEnv :=
  ⟨some "h", fun i => decide (0 < i), fun _ => true, fun i => decide (1 < i),
   true⟩

/-- C7 witness: with index 0 failing at the info file, index 1 failing at
the core file and index 2 usable, the scan picks index 2 and the session
holds matching filenames info.h.2 / vmcore.h.2. -/
theorem C7_alloc_scan_witness :
    ((2 : Nat) < MAX_DUMPS ∧ goodIdx aenvW 2 = true ∧
      ∀ j < 2, goodIdx aenvW j = false) ∧
    (∃ i host, aenvW.hostnameResult = some host ∧
      (scanIdx aenvW (List.range MAX_DUMPS)).2 = some i ∧
      ({ path := "d", infofilename := "d/info.h.2",
         corefilename := "d/vmcore.h.2", hostname := "h", last_msg := 5,
         ip := 9, any_data_rcvd := false, vmcoreoff := 0,
         vmcorebuf := [] } : NetdumpClient).infofilename
        = infoName "d" host i ∧
      ({ path := "d", infofilename := "d/info.h.2",
         corefilename := "d/vmcore.h.2", hostname := "h", last_msg := 5,
         ip := 9, any_data_rcvd := false, vmcoreoff := 0,
         vmcorebuf := [] } : NetdumpClient).corefilename
        = coreName "d" host i) :=
  ⟨(C7_alloc_scan aenvW).2.2.2.1 2 (by decide),
   (C7_alloc_scan aenvW).2.2.2.2.2.1 5 9 "d"
     { path := "d", infofilename := "d/info.h.2",
       corefilename := "d/vmcore.h.2", hostname := "h", last_msg := 5,
       ip := 9, any_data_rcvd := false, vmcoreoff := 0, vmcorebuf := [] }
     (by decide)⟩

/-- The last wake of a non-empty trace ignores the start time. -/
theorem lastWake_cons (prev w : Int) (ws : List Int) :
    lastWake prev (w :: ws) = lastWake w ws := by
  cases ws with
  | nil => simp [lastWake]
  | cons w2 ws2 =>
      unfold lastWake
      rw [List.getLast?_cons_cons]
      rcases hl : (w2 :: ws2).getLast? with _ | x
      · exact absurd hl (by simp [List.getLast?_eq_none_iff])
      · simp

/-- The sweep floor: within CLIENT_TPASS seconds of the previous sweep,
timeout_clients does nothing. -/
theorem timeout_clients_skip (g_now g_last : Int) (cs : List NetdumpClient)
    (h : g_now - g_last < CLIENT_TPASS) :
    timeout_clients g_now g_last cs = (g_last, cs, []) := by
  unfold timeout_clients
  rw [if_pos h]

/-- A sweep over a singleton registry terminates the session when its
last_msg + CLIENT_TIMEOUT lies strictly before the sweep time. -/
theorem timeout_clients_single_kill (w L : Int) (c : NetdumpClient)
    (hrun : ¬(w - L < CLIENT_TPASS)) (hterm : c.last_msg + CLIENT_TIMEOUT < w) :
    timeout_clients w L [c] = (w, [], handle_timeout_acts) := by
  unfold timeout_clients
  rw [if_neg hrun]
  simp [List.filter, hterm]

/-- A sweep over a singleton registry keeps a session that is not yet
timed out. -/
theorem timeout_clients_single_keep (w L : Int) (c : NetdumpClient)
    (hrun : ¬(w - L < CLIENT_TPASS))
    (hterm : ¬(c.last_msg + CLIENT_TIMEOUT < w)) :
    timeout_clients w L [c] = (w, [c], []) := by
  unfold timeout_clients
  rw [if_neg hrun]
  simp [List.filter, hterm]

/-- Liveness bound for the timeout machinery: on any legal wake trace
(gaps of at most 10 seconds) that starts while the last sweep is no later
than the moment the session becomes eligible and runs long enough, the
idle session is terminated at a wake time strictly after last_msg + 600
and no later than last_msg + 620. -/
theorem runWakes_bound (c : NetdumpClient) :
    ∀ (ws : List Int) (prev L : Int),
      chain10 prev ws = true → L ≤ prev →
      L ≤ c.last_msg + 601 → prev ≤ c.last_msg + 610 →
      c.last_msg + 620 ≤ lastWake prev ws →
      ∃ t, runWakes L c ws = some t ∧ c.last_msg + 600 < t ∧
        t ≤ c.last_msg + 620 := by
  intro ws
  induction ws with
  | nil =>
      intro prev L hch hLp hL hp hlast
      exfalso
      simp [lastWake] at hlast
      omega
  | cons w ws ih =>
      intro prev L hch hLp hL hp hlast
      have hch' : ((prev ≤ w ∧ w ≤ prev + 10) ∧ chain10 w ws = true) := by
        simpa [chain10, Bool.and_eq_true, decide_eq_true_eq] using hch
      rw [lastWake_cons] at hlast
      unfold runWakes
      by_cases hskip : w - L < CLIENT_TPASS
      · rw [timeout_clients_skip w L [c] hskip]
        simp only [List.isEmpty_cons, Bool.false_eq_true, if_false]
        exact ih w L hch'.2 (le_trans hLp hch'.1.1) hL
          (by unfold CLIENT_TPASS at hskip; omega) hlast
      · by_cases hterm : c.last_msg + CLIENT_TIMEOUT < w
        · rw [timeout_clients_single_kill w L c hskip hterm]
          simp only [List.isEmpty_nil, if_true]
          refine ⟨w, rfl, ?_, ?_⟩
          · unfold CLIENT_TIMEOUT at hterm
            omega
          · have := hch'.1.2
            omega
        · rw [timeout_clients_single_keep w L c hskip hterm]
          simp only [List.isEmpty_cons, Bool.false_eq_true, if_false]
          exact ih w w hch'.2 le_rfl
            (by unfold CLIENT_TIMEOUT at hterm; omega)
            (by unfold CLIENT_TIMEOUT at hterm; omega) hlast

/-- C6 (amended): every session whose last_msg + 600 s lies strictly
before the sweep time is terminated via the timeout path when a sweep
runs, and sweeps are at least 10 seconds apart (the floor); but because a
wake can fall just inside the floor and the next wake can be up to 10
seconds later, consecutive sweeps may be up to ~20 seconds apart, so an
idle session is only guaranteed termination within 20 seconds - not 10 -
of exceeding the 600-second idle period. -/
theorem C6_timeout_sweep_amended :
    (∀ (g_now g_last : Int) (cs : List NetdumpClient),
      g_now - g_last < CLIENT_TPASS →
      timeout_clients g_now g_last cs = (g_last, cs, [])) ∧
    (∀ (g_now g_last : Int) (cs : List NetdumpClient) (c : NetdumpClient),
      CLIENT_TPASS ≤ g_now - g_last → c ∈ cs →
      c.last_msg + CLIENT_TIMEOUT < g_now →
      c ∉ (timeout_clients g_now g_last cs).2.1 ∧
      Act.handler "timeout" ∈ (timeout_clients g_now g_last cs).2.2) ∧
    (∀ (c : NetdumpClient) (ws : List Int) (prev L : Int),
      chain10 prev ws = true → L ≤ prev → prev ≤ c.last_msg + 601 →
      c.last_msg + 620 ≤ lastWake prev ws →
      ∃ t, runWakes L c ws = some t ∧ c.last_msg + 600 < t ∧
        t ≤ c.last_msg + 620) := by
  refine ⟨?_, ?_, ?_⟩
  · intro g_now g_last cs h
    exact timeout_clients_skip g_now g_last cs h
  · intro g_now g_last cs c hrun hmem hterm
    unfold timeout_clients
    rw [if_neg (by omega)]
    constructor
    · intro hin
      rcases (List.mem_filter.mp hin) with ⟨_, hdec⟩
      rw [decide_eq_true hterm] at hdec
      exact absurd hdec (by decide)
    · apply List.mem_flatMap.mpr
      refine ⟨c, List.mem_filter.mpr ⟨hmem, decide_eq_true hterm⟩, ?_⟩
      simp [handle_timeout_acts]
  · intro c ws prev L hch hLp hprev hlast
    exact runWakes_bound c ws prev L hch hLp (by omega) (by omega) hlast

/-- C6 counterexample: a legal trace (wakes at 1600, 1609 and 1619, each
within 10 s of the previous wake) for a session idle since 1000.  The
session exceeds 600 s of idleness at 1601, but the 1609 wake skips the
sweep (only 9 s after the 1600 sweep), so the first termination happens at
1619 - more than 10 seconds after the idle bound was exceeded, refuting
the claimed 10-second bound. -/
theorem C6_ten_second_cex :
    chain10 1590 [1600, 1609, 1619] = true ∧
    runWakes 0
      { path := "p", infofilename := "p/info.h.0",
        corefilename := "p/vmcore.h.0", hostname := "h", last_msg := 1000,
        ip := 1, any_data_rcvd := true, vmcoreoff := 0, vmcorebuf := [] }
      [1600, 1609, 1619] = some 1619 ∧
    (1000 : Int) + 601 + 10 < 1619 := by
  decide

/-- C6 witness: the floor applied concretely, and the 20-second bound
applied to the counterexample trace extended far enough. -/
theorem C6_timeout_sweep_amended_witness :
    (timeout_clients 5 0 [] = (0, [], [])) ∧
    (∃ t, runWakes 0
      { path := "p", infofilename := "p/info.h.0",
        corefilename := "p/vmcore.h.0", hostname := "h", last_msg := 1000,
        ip := 1, any_data_rcvd := true, vmcoreoff := 0, vmcorebuf := [] }
      [1600, 1609, 1619, 1629] = some t ∧
      (1000 : Int) + 600 < t ∧ t ≤ 1000 + 620) :=
  ⟨C6_timeout_sweep_amended.1 5 0 [] (by decide),
   C6_timeout_sweep_amended.2.2
     { path := "p", infofilename := "p/info.h.0",
       corefilename := "p/vmcore.h.0", hostname := "h", last_msg := 1000,
       ip := 1, any_data_rcvd := true, vmcoreoff := 0, vmcorebuf := [] }
     [1600, 1609, 1619, 1629] 1590 0 (by decide) (by decide) (by decide)
     (by decide)⟩

/-- handle_vmcore never changes last_msg on a surviving session. -/
theorem handle_vmcore_keeps_last (fenv : FsEnv) (c : NetdumpClient)
    (pkt : NetdumpPkt) (acts : List Act) (c1 : NetdumpClient)
    (h : handle_vmcore fenv c pkt = (acts, some c1)) :
    c1.last_msg = c.last_msg := by
  rcases vmcore_maybe_flush_cases fenv { c with any_data_rcvd := true } pkt
    with hm | hm | ⟨hm, _⟩
  · rw [handle_vmcore_staged fenv c pkt _ _ hm] at h
    simp only [Prod.mk.injEq, Option.some.injEq] at h
    rw [← h.2]
  · rw [handle_vmcore_staged fenv c pkt _ _ hm] at h
    simp only [Prod.mk.injEq, Option.some.injEq] at h
    rw [← h.2]
  · rw [handle_vmcore_aborted fenv c pkt _ hm] at h
    simp at h

/-- handle_finish never changes last_msg on a surviving session. -/
theorem handle_finish_keeps_last (fenv : FsEnv) (c : NetdumpClient)
    (pkt : NetdumpPkt) (acts : List Act) (c1 : NetdumpClient)
    (h : handle_finish fenv c pkt = (acts, some c1)) :
    c1.last_msg = c.last_msg := by
  rcases Bool.eq_false_or_eq_true (fenv.pwriteOk c.vmcoreoff c.vmcorebuf)
    with hw | hw
  case inr =>
    rw [handle_finish_flush_fail fenv c pkt hw] at h
    simp at h
  case inl =>
    rw [handle_finish_flushed fenv c pkt hw] at h
    split_ifs at h
    · simp only [Prod.mk.injEq, Option.some.injEq] at h
      rw [← h.2]
    · simp only [Prod.mk.injEq, Option.some.injEq] at h
      rw [← h.2]
    · simp only [Prod.mk.injEq, Option.some.injEq] at h
      rw [← h.2]
    · simp only [Prod.mk.injEq, Option.some.injEq] at h
      rw [← h.2]
    · simp at h

/-- C8 (amended): the wake records g_now from the first time() call of
the wake (clock 0) and reuses it for every timeout-sweep decision (the
floor check and each per-session comparison use the same clock 0 sample)
and for a newly allocated session's initial last_msg; but a session's
last-activity update on an accepted packet calls time() afresh - the
surviving session's last_msg equals the wake's k-th clock sample (k at
least 1), not the recorded g_now. -/
theorem C8_wake_clock_amended :
    (∀ (fenv : FsEnv) (clock : Nat → Int) (k : Nat) (c : NetdumpClient)
        (dlen : Nat) (pkt : NetdumpPkt) (acts : List Act)
        (c1 : NetdumpClient) (k1 : Nat),
      NETDUMP_MSG_HDR_SIZE ≤ dlen →
      dlen - NETDUMP_MSG_HDR_SIZE = pkt.hdr.mh_len →
      client_event fenv clock k c dlen pkt = ((acts, some c1), k1) →
      c1.last_msg = clock k ∧ k1 = k + 1) ∧
    (∀ (aenv : AllocEnv) (fenv : FsEnv) (clock : Nat → Int) (g_last : Int)
        (cs : List NetdumpClient),
      (eventloop_wake aenv fenv clock g_last cs []).1 = clock 0 ∧
      (CLIENT_TPASS ≤ clock 0 - g_last →
        (eventloop_wake aenv fenv clock g_last cs []).2.2.1
          = cs.filter (fun c =>
              !(decide (c.last_msg + CLIENT_TIMEOUT < clock 0))))) ∧
    (∀ (aenv : AllocEnv) (g_now : Int) (ip : Nat) (path : String)
        (c : NetdumpClient),
      alloc_client aenv g_now ip path = some c → c.last_msg = g_now) := by
  refine ⟨?_, ?_, ?_⟩
  · intro fenv clock k c dlen pkt acts c1 k1 hc1 hc2 heq
    rw [client_event_dispatch fenv clock k c dlen pkt hc1 hc2] at heq
    have hk1 : k1 = k + 1 := by
      have h2 := congrArg Prod.snd heq
      simpa using h2.symm
    have hfst := congrArg Prod.fst heq
    simp only [] at hfst
    refine ⟨?_, hk1⟩
    by_cases ht1 : pkt.hdr.mh_type = NETDUMP_KDH
    · rw [if_pos ht1] at hfst
      unfold handle_kdh at hfst
      split_ifs at hfst
      · simp only [Prod.mk.injEq, Option.some.injEq] at hfst
        rw [← hfst.2]
      · simp only [Prod.mk.injEq, Option.some.injEq] at hfst
        rw [← hfst.2]
    · rw [if_neg ht1] at hfst
      by_cases ht2 : pkt.hdr.mh_type = NETDUMP_VMCORE
      · rw [if_pos ht2] at hfst
        exact handle_vmcore_keeps_last fenv _ pkt acts c1 hfst
      · rw [if_neg ht2] at hfst
        by_cases ht3 : pkt.hdr.mh_type = NETDUMP_FINISHED
        · rw [if_pos ht3] at hfst
          exact handle_finish_keeps_last fenv _ pkt acts c1 hfst
        · rw [if_neg ht3] at hfst
          simp only [Prod.mk.injEq, Option.some.injEq] at hfst
          rw [← hfst.2]
  · intro aenv fenv clock g_last cs
    refine ⟨rfl, fun h => ?_⟩
    show (timeout_clients (clock 0) g_last cs).2.1 = _
    unfold timeout_clients
    rw [if_neg (by omega)]
  · intro aenv g_now ip path c h
    unfold alloc_client at h
    rcases he : aenv.hostnameResult with _ | host
    · rw [he] at h
      simp at h
    · rw [he] at h
      rcases hs : (scanIdx aenv (List.range MAX_DUMPS)).2 with _ | i
      · rw [hs] at h
        simp at h
      · rw [hs] at h
        split_ifs at h
        simp only [Option.some.injEq] at h
        subst h
        rfl

/-- C8 counterexample: with a clock that returns 100 on the wake's first
time() call and 101 on the second, a single accepted packet leaves the
session with last_msg = 101 while the wake recorded g_now = 100 - the
last-activity update did not reuse the single recorded timestamp, refuting
the claim that every decision in one wake observes the same now. -/
theorem C8_fresh_time_cex :
    (eventloop_wake
      ⟨none, fun _ => false, fun _ => false, fun _ => false, false⟩
      fenvAllOk (fun i => 100 + (i : Int)) 95
      [{ path := "p", infofilename := "p/info.h.0",
         corefilename := "p/vmcore.h.0", hostname := "h", last_msg := 0,
         ip := 1, any_data_rcvd := false, vmcoreoff := 0, vmcorebuf := [] }]
      [WakeEvent.clientData 1 20 ⟨⟨4, 99, 0, 0⟩, []⟩]).1 = 100 ∧
    (eventloop_wake
      ⟨none, fun _ => false, fun _ => false, fun _ => false, false⟩
      fenvAllOk (fun i => 100 + (i : Int)) 95
      [{ path := "p", infofilename := "p/info.h.0",
         corefilename := "p/vmcore.h.0", hostname := "h", last_msg := 0,
         ip := 1, any_data_rcvd := false, vmcoreoff := 0, vmcorebuf := [] }]
      [WakeEvent.clientData 1 20 ⟨⟨4, 99, 0, 0⟩, []⟩]).2.2.1
      = [{ path := "p", infofilename := "p/info.h.0",
           corefilename := "p/vmcore.h.0", hostname := "h", last_msg := 101,
           ip := 1, any_data_rcvd := false, vmcoreoff := 0,
           vmcorebuf := [] }] ∧
    (101 : Int) ≠ 100 := by
  decide

/-- C8 witness: the per-packet part applied to a concrete accepted packet
(last_msg becomes clock 1, the call counter advances), and the allocation
part applied to a concrete allocation (last_msg = g_now). -/
theorem C8_wake_clock_amended_witness :
    (({ path := "p", infofilename := "p/info.h.0",
        corefilename := "p/vmcore.h.0", hostname := "h", last_msg := 101,
        ip := 1, any_data_rcvd := false, vmcoreoff := 0,
        vmcorebuf := [] } : NetdumpClient).last_msg
        = (fun i => 100 + (i : Int)) 1 ∧ (2 : Nat) = 1 + 1) ∧
    ({ path := "d", infofilename := "d/info.h.0",
       corefilename := "d/vmcore.h.0", hostname := "h", last_msg := 42,
       ip := 9, any_data_rcvd := false, vmcoreoff := 0,
       vmcorebuf := [] } : NetdumpClient).last_msg = 42 :=
  ⟨C8_wake_clock_amended.1 fenvAllOk (fun i => 100 + (i : Int)) 1
    { path := "p", infofilename := "p/info.h.0",
      corefilename := "p/vmcore.h.0", hostname := "h", last_msg := 0,
      ip := 1, any_data_rcvd := false, vmcoreoff := 0, vmcorebuf := [] }
    20 ⟨⟨4, 99, 0, 0⟩, []⟩ []
    { path := "p", infofilename := "p/info.h.0",
      corefilename := "p/vmcore.h.0", hostname := "h", last_msg := 101,
      ip := 1, any_data_rcvd := false, vmcoreoff := 0, vmcorebuf := [] }
    2 (by decide) (by decide) (by decide),
   C8_wake_clock_amended.2.2
    ⟨some "h", fun _ => true, fun _ => true, fun _ => true, true⟩ 42 9 "d"
    { path := "d", infofilename := "d/info.h.0",
      corefilename := "d/vmcore.h.0", hostname := "h", last_msg := 42,
      ip := 9, any_data_rcvd := false, vmcoreoff := 0, vmcorebuf := [] }
    (by decide)⟩

/-- The k-th maximal VMCORE packet of a sequential dump: 1456 payload
bytes at offset k * 1456. -/
def fullPkt (k : Nat) : NetdumpPkt :=
  ⟨⟨k, 3, 1456, k * 1456⟩, List.replicate 1456 170⟩

/-- Repeated staging: feed a list of VMCORE packets to handle_vmcore,
stopping the state at none once the session is destroyed. -/
def stageRun (fenv : FsEnv) :
    List NetdumpPkt → Option NetdumpClient → Option NetdumpClient
  | [], r => r
  | p :: ps, r =>
      stageRun fenv ps
        (match r with
         | none => none
         | some c => (handle_vmcore fenv c p).2)

/-- stageRun distributes over list concatenation. -/
theorem stageRun_append (fenv : FsEnv) (ps qs : List NetdumpPkt) :
    ∀ r : Option NetdumpClient,
      stageRun fenv (ps ++ qs) r = stageRun fenv qs (stageRun fenv ps r) := by
  induction ps with
  | nil => intro r; rfl
  | cons p ps ih =>
      intro r
      show stageRun fenv (ps ++ qs) _ = _
      rw [ih]
      rfl

/-- Staging n contiguous maximal packets (n at most 90) from an empty
buffer fills the buffer to n * 1456 bytes with no flush in between. -/
theorem stageRun_full (n : Nat) (hn : n ≤ 90) :
    stageRun fenvAllOk ((List.range n).map fullPkt)
      (some { cexC2client with vmcorebuf := ([] : List Nat) })
      = some { cexC2client with
               vmcorebuf := List.replicate (n * 1456) 170 } := by
  induction n with
  | zero => rfl
  | succ m ih =>
      have hm : m ≤ 90 := by omega
      rw [List.range_succ, List.map_append, stageRun_append, ih hm]
      have hl : ({ cexC2client with
          vmcorebuf := List.replicate (m * 1456) 170 } :
            NetdumpClient).vmcorebuf.length = m * 1456 :=
        List.length_replicate _ _
      have hmf : vmcore_maybe_flush fenvAllOk
          { { cexC2client with vmcorebuf := List.replicate (m * 1456) 170 }
            with any_data_rcvd := true } (fullPkt m)
          = ([], some { { cexC2client with
              vmcorebuf := List.replicate (m * 1456) 170 }
              with any_data_rcvd := true }) := by
        unfold vmcore_maybe_flush
        rw [if_neg]
        intro hcond
        rcases hcond with h1 | ⟨h2, h3⟩
        · have hb : VMCORE_BUFSZ < m * 1456 + NETDUMP_DATASIZE := by
            simpa [hl] using h1
          unfold VMCORE_BUFSZ NETDUMP_DATASIZE at hb
          omega
        · apply h3
          have e1 : ({ { cexC2client with
              vmcorebuf := List.replicate (m * 1456) 170 }
              with any_data_rcvd := true } :
                NetdumpClient).vmcoreoff = 0 := rfl
          have e2 : ({ { cexC2client with
              vmcorebuf := List.replicate (m * 1456) 170 }
              with any_data_rcvd := true } :
                NetdumpClient).vmcorebuf.length = m * 1456 :=
            List.length_replicate _ _
          have e3 : (fullPkt m).hdr.mh_offset = m * 1456 := rfl
          rw [e1, e2, e3]
          omega
      show (handle_vmcore fenvAllOk
        { cexC2client with vmcorebuf := List.replicate (m * 1456) 170 }
        (fullPkt m)).2 = _
      rw [handle_vmcore_staged fenvAllOk _ (fullPkt m) _ _ hmf]
      by_cases hz : m = 0
      · subst hz
        rfl
      · have e2 : ({ { cexC2client with
            vmcorebuf := List.replicate (m * 1456) 170 }
            with any_data_rcvd := true } :
              NetdumpClient).vmcorebuf.length = m * 1456 :=
          List.length_replicate _ _
        have hpos : ¬(({ { cexC2client with
            vmcorebuf := List.replicate (m * 1456) 170 }
            with any_data_rcvd := true } :
              NetdumpClient).vmcorebuf.length = 0) := by
          rw [e2]
          omega
        simp only [Option.some.injEq, if_neg hpos]
        have hnum : (m + 1) * 1456 = m * 1456 + 1456 := by ring
        rw [hnum, List.replicate_add]
        rfl

/-- The buffer state of the C2 counterexample is reachable: 90 contiguous
maximal VMCORE packets staged into an empty buffer produce exactly the
131040-byte fill at base offset 0 used there, without any flush. -/
theorem bigbuf_reachable :
    stageRun fenvAllOk ((List.range 90).map fullPkt)
      (some { cexC2client with vmcorebuf := ([] : List Nat) })
      = some cexC2client := by
  rw [stageRun_full 90 (by omega)]
  rfl
